import Mathlib

/-!
Shallow embedding of the DNS forwarder engine of DnsLibs
(src/proxy/src/dns_forwarder.cpp) and proofs about it.

Modelling conventions:
* `ldns_pkt` is modelled as the structure `Pkt`; section counts other than
  `qdcount` are identified with the lengths of the record lists (the source
  keeps them consistent); `qdcount` is kept as a separate field because the
  source sets it independently of the question list.
* Machine integers are `Nat`/`Int`; TTLs are the `uint32_t` values 0..2^32-1.
* The steady clock is modelled in integer milliseconds; a C++
  `duration_cast`/`ceil<seconds>` becomes `ceilSecMs`.
* External collaborators (the rule filter, the upstream transports, the
  address utilities, DNS64 address synthesis) are oracle functions carried
  in `Env`, exactly as the source accesses them through interfaces.
-/

namespace DnsLibs

/-- Ceiling conversion of a millisecond count to whole seconds, the model of
C++ `std::chrono::ceil<seconds>` applied to a duration of `ms` milliseconds
(`/` on `Int` rounds toward negative infinity for this positive divisor). -/
def ceilSecMs (ms : Int) : Int :=
  (ms + 999) / 1000

/-- ASCII lowercasing of one character, the model of C `tolower` as applied
to domain-name bytes. -/
def lowerChar (c : Char) : Char :=
  if 65 ≤ c.toNat ∧ c.toNat ≤ 90 then Char.ofNat (c.toNat + 32) else c

/-- Lowercase a string character by character. -/
def strLower (s : String) : String :=
  ⟨s.data.map lowerChar⟩

/-- Resource record types distinguished by the forwarder; every other type is
kept abstract through its numeric code. -/
inductive RrType where
  | A
  | AAAA
  | CNAME
  | SOA
  | OTHER (code : Nat)
deriving DecidableEq, Repr

/-- The numeric code of an `RrType`, as printed by the cache-key format. -/
def rrTypeCode : RrType → Nat
  | .A => 1
  | .AAAA => 28
  | .CNAME => 5
  | .SOA => 6
  | .OTHER code => code

/-- DNS response codes used by the forwarder. -/
inductive Rcode where
  | NOERROR
  | FORMERR
  | SERVFAIL
  | NXDOMAIN
  | NOTIMPL
  | REFUSED
deriving DecidableEq, Repr

/-- Rdata fields.  The constructors record how the source creates the field
(`ldns_rdf_new_frm_str` from a textual address, `ldns_rdf_new_frm_data` from
raw bytes, dname/int32 fields of a SOA, or an opaque field carried inside an
upstream response). -/
inductive Rdf where
  | a4 (s : String)
  | a6 (s : String)
  | aaaaData (b : List Nat)
  | dnameOf (s : String)
  | int32 (n : Nat)
  | raw (b : List Nat)
deriving DecidableEq, Repr

/-- The byte view `ldns_rdf_data`/`ldns_rdf_size` of a field, for the fields
the embedded code reads bytes from (DNS64 input records, IP post-filtering). -/
def rdfData : Rdf → List Nat
  | .aaaaData b => b
  | .raw b => b
  | _ => []

/-- The textual form `ldns_rdf2str` of a field, for the fields the embedded
code stringifies (CNAME targets). -/
def rdfStr : Rdf → String
  | .a4 s => s
  | .a6 s => s
  | .dnameOf s => s
  | _ => ""

/-- A resource record: owner name in presentation form (labels joined and
followed by dots, as `ldns_rdf2str` prints them), TTL, type, class and the
rdata field list. -/
structure Rr where
  owner : String
  ttl : Nat
  rtype : RrType
  rclass : Nat
  rdfs : List Rdf
deriving DecidableEq, Repr

/-- The RETRY field of a SOA record (rdata field index 4), when present. -/
def soaRetryOf (rr : Rr) : Option Nat :=
  match rr.rdfs.get? 4 with
  | some (.int32 n) => some n
  | _ => none

/-- A question section entry. `qname` is the owner in presentation form with
a trailing root dot (the root itself is "."). -/
structure Question where
  qname : String
  qtype : RrType
  qclass : Nat
deriving DecidableEq, Repr

/-- A parsed DNS message as the forwarder observes it through ldns. -/
structure Pkt where
  id : Nat
  qr : Bool
  aa : Bool
  tc : Bool
  rd : Bool
  cd : Bool
  ra : Bool
  rcode : Rcode
  qdcount : Nat
  question : List Question
  answer : List Rr
  authority : List Rr
  additional : List Rr
  edns : Bool
  edns_udp_size : Nat
  edns_do : Bool
  edns_data : Bool
  edns_extended_rcode : Nat
  edns_unassigned : Nat
deriving DecidableEq, Repr

/-- `ldns_pkt_new`: all-zero packet. -/
def Pkt.empty : Pkt :=
  ⟨0, false, false, false, false, false, false, .NOERROR, 0, [], [], [], [],
   false, 0, false, false, 0, 0⟩

instance : Inhabited Pkt := ⟨Pkt.empty⟩

/-- The qtype of the first question (the source reads question record 0
unconditionally after validating the question section is present). -/
def qtypeOf (p : Pkt) : RrType :=
  (p.question.head?.map Question.qtype).getD (.OTHER 0)

/-- The qclass of the first question. -/
def qclassOf (p : Pkt) : Nat :=
  (p.question.head?.map Question.qclass).getD 1

/-- The owner name of the first question. -/
def ownerOf (p : Pkt) : String :=
  (p.question.head?.map Question.qname).getD ""

/-- `has_unsupported_extensions` (dns_forwarder.cpp:754): EDNS data present,
or a non-zero extended rcode, or unassigned EDNS flags. -/
def has_unsupported_extensions (p : Pkt) : Bool :=
  p.edns_data || decide (p.edns_extended_rcode ≠ 0) || decide (p.edns_unassigned ≠ 0)

/-- `get_cache_key` (dns_forwarder.cpp:37): "type|class|DO CD|" followed by the
lowercased owner name (each label followed by a dot, as the byte walk in the
source produces). -/
def get_cache_key (request : Pkt) : String :=
  match request.question.head? with
  | none => ""
  | some q =>
      toString (rrTypeCode q.qtype) ++ "|" ++ toString q.qclass ++ "|"
        ++ (if request.edns_do then "1" else "0")
        ++ (if request.cd then "1" else "0")
        ++ "|" ++ strLower q.qname

/-- Drop a trailing root dot, the model of the
`ldns_dname_str_absolute`/`remove_suffix(1)` pattern in the source. -/
def stripDot (s : String) : String :=
  if s.data.getLast? = some ('.') then String.mk s.data.dropLast else s

/-- A filter match result (dnsfilter::rule): rule text, filter id, optional
IP literal, and the EXCEPTION property bit. -/
structure Rule where
  text : String
  filter_id : Int
  ip : Option String
  exception : Bool
deriving DecidableEq, Repr

/-- The blocking modes of the proxy settings. -/
inductive BlockingMode where
  | DEFAULT
  | REFUSED
  | NXDOMAIN
  | UNSPECIFIED_ADDRESS
  | CUSTOM_ADDRESS
deriving DecidableEq, Repr

/-- The proxy settings fields read by the embedded code. -/
structure Settings where
  dns_cache_size : Nat
  optimistic_cache : Bool
  block_ipv6 : Bool
  blocking_mode : BlockingMode
  blocked_response_ttl_secs : Nat
  custom_blocking_ipv4 : String
  custom_blocking_ipv6 : String
  dns64_enabled : Bool
deriving DecidableEq, Repr

/-- dns_forwarder.cpp:28. -/
def MOZILLA_DOH_HOST : String := "use-application-dns.net."

/-- dns_forwarder.cpp:34. -/
def SOA_RETRY_DEFAULT : Nat := 900

/-- dns_forwarder.cpp:35. -/
def SOA_RETRY_IPV6_BLOCK : Nat := 60

/-- The "blocking" IP literals of `rules_contain_blocking_ip`
(dns_forwarder.cpp:283). -/
def BLOCKING_IPS : List String := ["0.0.0.0", "127.0.0.1", "::", "::1", "[::]", "[::1]"]

/-- The IP a rule carries; the source calls `rule->ip.value()` on rules it
has already selected as carrying an IP. -/
def ruleIp (r : Rule) : String := r.ip.getD ""

/-- `rules_contain_blocking_ip` (dns_forwarder.cpp:282). -/
def rules_contain_blocking_ip (rules : List Rule) : Bool :=
  rules.any (fun r => match r.ip with
    | some ip => BLOCKING_IPS.contains ip
    | none => false)

/-- `create_response_by_request` (dns_forwarder.cpp:87).  The intermediate
question record that `ldns_pkt_query_new` installs (forcing type A when the
request type is not AAAA) is discarded: the source frees it and replaces the
question section with a clone of the request's, so the observable result is
a fresh packet with RD and RA set, QR set, the request's id, qdcount and
question section. -/
def create_response_by_request (request : Pkt) : Pkt :=
  { Pkt.empty with
      id := request.id, qr := true, rd := true, ra := true,
      qdcount := request.qdcount, question := request.question }

/-- `get_mbox` (dns_forwarder.cpp:110): "hostmaster." followed by the zone
when the zone string is non-empty and does not start with a dot. -/
def get_mbox (request : Pkt) : String :=
  let zone := ownerOf request
  match zone.toList with
  | [] => "hostmaster."
  | c :: _ => if c = '.' then "hostmaster." else "hostmaster." ++ zone

/-- `create_soa` (dns_forwarder.cpp:122).  `wallNow` is `time(nullptr)`. -/
def create_soa (wallNow : Nat) (request : Pkt) (s : Settings) (retry_secs : Nat) : Rr :=
  ⟨ownerOf request, s.blocked_response_ttl_secs, .SOA, 1,
    [.dnameOf ("fake-for-negative-caching.adguard.com."),
     .dnameOf (get_mbox request),
     .int32 (wallNow + 100500),
     .int32 1800,
     .int32 retry_secs,
     .int32 604800,
     .int32 86400]⟩

/-- `create_nxdomain_response` (dns_forwarder.cpp:143). -/
def create_nxdomain_response (wallNow : Nat) (request : Pkt) (s : Settings) : Pkt :=
  let r := create_response_by_request request
  { r with rcode := .NXDOMAIN, authority := r.authority ++ [create_soa wallNow request s 900] }

/-- `create_refused_response` (dns_forwarder.cpp:150). -/
def create_refused_response (request : Pkt) (_s : Settings) : Pkt :=
  { create_response_by_request request with rcode := .REFUSED }

/-- `create_soa_response` (dns_forwarder.cpp:156). -/
def create_soa_response (wallNow : Nat) (request : Pkt) (s : Settings) (retry_secs : Nat) : Pkt :=
  let r := create_response_by_request request
  { r with rcode := .NOERROR, authority := r.authority ++ [create_soa wallNow request s retry_secs] }

/-- `create_servfail_response` (dns_forwarder.cpp:352). -/
def create_servfail_response (request : Pkt) : Pkt :=
  { create_response_by_request request with rcode := .SERVFAIL }

/-- `create_arecord_response` (dns_forwarder.cpp:163): a single A record whose
rdata list holds one address field per rule, pushed into the answer section.
`rules` is the already-filtered non-null prefix of the source's array. -/
def create_arecord_response (request : Pkt) (s : Settings) (rules : List Rule) : Pkt :=
  let answer : Rr :=
    ⟨ownerOf request, s.blocked_response_ttl_secs, .A, 1,
      rules.map (fun r => Rdf.a4 (ruleIp r))⟩
  let resp := create_response_by_request request
  { resp with answer := resp.answer ++ [answer] }

/-- `create_aaaarecord_response` (dns_forwarder.cpp:185). -/
def create_aaaarecord_response (request : Pkt) (s : Settings) (rules : List Rule) : Pkt :=
  let answer : Rr :=
    ⟨ownerOf request, s.blocked_response_ttl_secs, .AAAA, 1,
      rules.map (fun r => Rdf.a6 (ruleIp r))⟩
  let resp := create_response_by_request request
  { resp with answer := resp.answer ++ [answer] }

/-- `create_response_with_ips` (dns_forwarder.cpp:207).  `ip4` is the external
`utils::is_valid_ip4` predicate. -/
def create_response_with_ips (ip4 : String → Bool) (wallNow : Nat) (request : Pkt)
    (s : Settings) (rules : List Rule) : Pkt :=
  match qtypeOf request with
  | .A =>
      let ipv4_rules := rules.filter (fun r => ip4 (ruleIp r))
      if ipv4_rules.length > 0 then create_arecord_response request s ipv4_rules
      else create_soa_response wallNow request s SOA_RETRY_DEFAULT
  | .AAAA =>
      let ipv6_rules := rules.filter (fun r => !(ip4 (ruleIp r)))
      if ipv6_rules.length > 0 then create_aaaarecord_response request s ipv6_rules
      else create_soa_response wallNow request s SOA_RETRY_DEFAULT
  | _ => create_soa_response wallNow request s SOA_RETRY_DEFAULT

/-- `create_unspec_or_custom_address_response` (dns_forwarder.cpp:240). -/
def create_unspec_or_custom_address_response (wallNow : Nat) (request : Pkt)
    (s : Settings) : Pkt :=
  let t := qtypeOf request
  if s.blocking_mode = .CUSTOM_ADDRESS ∧ t = .A ∧ s.custom_blocking_ipv4 = "" then
    create_soa_response wallNow request s SOA_RETRY_DEFAULT
  else if s.blocking_mode = .CUSTOM_ADDRESS ∧ t = .AAAA ∧ s.custom_blocking_ipv6 = "" then
    create_soa_response wallNow request s SOA_RETRY_DEFAULT
  else
    let rdf : Rdf :=
      if t = .A then
        if s.blocking_mode = .CUSTOM_ADDRESS then .a4 s.custom_blocking_ipv4
        else .a4 ("0.0.0.0")
      else
        if s.blocking_mode = .CUSTOM_ADDRESS then .a6 s.custom_blocking_ipv6
        else .a6 ("::")
    let rr : Rr := ⟨ownerOf request, s.blocked_response_ttl_secs, t, qclassOf request, [rdf]⟩
    let resp := create_response_by_request request
    { resp with answer := resp.answer ++ [rr] }

/-- `create_blocking_response` (dns_forwarder.cpp:292).  The source reads
`rules.front()`, so callers guarantee a non-empty rule list; the empty case
is given an arbitrary total default and is excluded by hypothesis in every
theorem below. -/
def create_blocking_response (ip4 : String → Bool) (wallNow : Nat) (request : Pkt)
    (s : Settings) (rules : List Rule) : Pkt :=
  match rules.head? with
  | none => create_refused_response request s
  | some effective_rule =>
    let t := qtypeOf request
    if t ≠ .A ∧ t ≠ .AAAA then
      match s.blocking_mode with
      | .DEFAULT =>
          if effective_rule.ip = none then create_refused_response request s
          else create_soa_response wallNow request s SOA_RETRY_DEFAULT
      | .REFUSED => create_refused_response request s
      | .NXDOMAIN => create_nxdomain_response wallNow request s
      | .UNSPECIFIED_ADDRESS => create_soa_response wallNow request s SOA_RETRY_DEFAULT
      | .CUSTOM_ADDRESS => create_soa_response wallNow request s SOA_RETRY_DEFAULT
    else if effective_rule.ip = none then
      match s.blocking_mode with
      | .DEFAULT => create_refused_response request s
      | .REFUSED => create_refused_response request s
      | .NXDOMAIN => create_nxdomain_response wallNow request s
      | .UNSPECIFIED_ADDRESS => create_unspec_or_custom_address_response wallNow request s
      | .CUSTOM_ADDRESS => create_unspec_or_custom_address_response wallNow request s
    else if rules_contain_blocking_ip rules then
      match s.blocking_mode with
      | .REFUSED => create_refused_response request s
      | .NXDOMAIN => create_nxdomain_response wallNow request s
      | .DEFAULT => create_unspec_or_custom_address_response wallNow request s
      | .UNSPECIFIED_ADDRESS => create_unspec_or_custom_address_response wallNow request s
      | .CUSTOM_ADDRESS => create_unspec_or_custom_address_response wallNow request s
    else
      create_response_with_ips ip4 wallNow request s rules

/-! ### The response cache

Modelled from the spec: the LRU container `ag::lru_cache` (ag_cache.h) is not
under src/.  `get` and `insert` follow the spec (§3 Cache, §4.2): a bounded
LRU keyed by the fingerprint string, lookups mutate recency, eviction drops
the least recently used entry when over capacity.  `make_lru` follows the
in-source caller documentation (dns_forwarder.cpp:760-764: on expiry the
entry "becomes least recently used") and the function's name.  Entries are
kept most-recently-used first. -/

/-- A bounded LRU map from fingerprint strings to values; `entries` is kept
most-recently-used first. -/
structure LruCache (α : Type) where
  capacity : Nat
  entries : List (String × α)
deriving DecidableEq, Repr

/-- Pure lookup without recency change (used to state hypotheses). -/
def LruCache.find? {α : Type} (c : LruCache α) (k : String) : Option α :=
  (c.entries.find? (fun e => e.1 == k)).map (fun e => e.2)

/-- `get`: on a hit, return the value and move the entry to the
most-recently-used position. -/
def LruCache.get {α : Type} (c : LruCache α) (k : String) : Option α × LruCache α :=
  match c.entries.find? (fun e => e.1 == k) with
  | none => (none, c)
  | some e => (some e.2, ⟨c.capacity, e :: c.entries.eraseP (fun x => x.1 == k)⟩)

/-- `make_lru`: move the entry for `k` to the least-recently-used position. -/
def LruCache.make_lru {α : Type} (c : LruCache α) (k : String) : LruCache α :=
  match c.entries.find? (fun e => e.1 == k) with
  | none => c
  | some e => ⟨c.capacity, c.entries.eraseP (fun x => x.1 == k) ++ [e]⟩

/-- `insert`: put the entry at the most-recently-used position, dropping the
least recently used entries beyond the capacity. -/
def LruCache.insert {α : Type} (c : LruCache α) (k : String) (v : α) : LruCache α :=
  ⟨c.capacity, ((k, v) :: c.entries.eraseP (fun x => x.1 == k)).take c.capacity⟩

/-- `erase`: drop the entry for `k`. -/
def LruCache.erase {α : Type} (c : LruCache α) (k : String) : LruCache α :=
  ⟨c.capacity, c.entries.eraseP (fun x => x.1 == k)⟩

/-- `ag::cached_response` (dns_forwarder.h): the stored template, the expiry
deadline on the steady clock (milliseconds here) and the upstream id. -/
structure CachedResponse where
  response : Pkt
  expires_at : Int
  upstream_id : Option Int
deriving DecidableEq, Repr

/-- `ag::cache_result` (dns_forwarder.h). -/
structure CacheResult where
  response : Option Pkt
  upstream_id : Option Int
  expired : Bool
deriving DecidableEq, Repr

/-- `ag::UDP_RECV_BUF_SIZE` (ag_net_consts.h, not under src/); the exact
value is immaterial to every claim below. -/
def UDP_RECV_BUF_SIZE : Nat := 65535

/-- Set the TTL of every record in the answer, authority and additional
sections (the three patch loops of `create_response_from_cache`). -/
def set_all_ttls (t : Nat) (p : Pkt) : Pkt :=
  { p with
      answer := p.answer.map (fun rr => { rr with ttl := t }),
      authority := p.authority.map (fun rr => { rr with ttl := t }),
      additional := p.additional.map (fun rr => { rr with ttl := t }) }

/-- `dns_forwarder::create_response_from_cache` (dns_forwarder.cpp:765).
Returns the lookup result and the cache state after the lookup (the source
mutates the shared cache in place: `get` bumps recency, an expired hit is
made least recently used). -/
def create_response_from_cache (s : Settings) (cache : LruCache CachedResponse)
    (now : Int) (key : String) (request : Pkt) : CacheResult × LruCache CachedResponse :=
  if s.dns_cache_size = 0 then (⟨none, none, false⟩, cache)
  else if has_unsupported_extensions request then (⟨none, none, false⟩, cache)
  else
    match cache.get key with
    | (none, _) => (⟨none, none, false⟩, cache)
    | (some entry, c1) =>
      let remaining := ceilSecMs (entry.expires_at - now)
      let expired := decide (remaining ≤ 0)
      let ttl : Nat := if remaining ≤ 0 then 1 else remaining.toNat
      let c2 := if remaining ≤ 0 then c1.make_lru key else c1
      let base := entry.response
      let patched :=
        { base with
            id := request.id,
            edns_udp_size := if base.edns then UDP_RECV_BUF_SIZE else base.edns_udp_size,
            qdcount := request.qdcount,
            question := request.question }
      (⟨some (set_all_ttls ttl patched), entry.upstream_id, expired⟩, c2)

/-- `compute_min_rr_ttl` (dns_forwarder.cpp:829): minimum TTL over the
answer, additional and authority sections, starting from `UINT32_MAX`; a
result still equal to `UINT32_MAX` (no records, or an insanely large TTL)
becomes 0. -/
def compute_min_rr_ttl (p : Pkt) : Nat :=
  let m := (p.answer ++ p.additional ++ p.authority).foldl
    (fun acc rr => Nat.min acc rr.ttl) 4294967295
  if m = 4294967295 then 0 else m

/-- The requested-type check of `put_response_into_cache`
(dns_forwarder.cpp:861-877): for an A or AAAA question, the answer section
must contain at least one record of the question type. -/
def type_check_fails (response : Pkt) : Bool :=
  match response.question.head? with
  | some q =>
      (decide (q.qtype = .A) || decide (q.qtype = .AAAA))
        && !(response.answer.any (fun rr => decide (rr.rtype = q.qtype)))
  | none => false

/-- `dns_forwarder::put_response_into_cache` (dns_forwarder.cpp:847): check
cacheability, strip the question section, clear AA, compute the minimum RR
TTL and insert with `expires_at = now + min_rr_ttl` (seconds, hence the
factor 1000 on the millisecond clock). -/
def put_response_into_cache (s : Settings) (cache : LruCache CachedResponse)
    (now : Int) (key : String) (response : Pkt) (upstream_id : Option Int) :
    LruCache CachedResponse :=
  if s.dns_cache_size = 0 then cache
  else if response.tc = true ∨ response.qdcount ≠ 1 ∨ response.rcode ≠ Rcode.NOERROR
      ∨ has_unsupported_extensions response = true then cache
  else if type_check_fails response = true then cache
  else if compute_min_rr_ttl { response with question := [], qdcount := 0, aa := false } = 0 then
    cache
  else
    cache.insert key
      ⟨{ response with question := [], qdcount := 0, aa := false },
        now + 1000 * (compute_min_rr_ttl
          { response with question := [], qdcount := 0, aa := false } : Int),
        upstream_id⟩

/-! ### Upstream dispatch -/

/-- One upstream as the dispatcher sees it: an identity for the exchange
oracle, the options id reported in events, the address string used in error
messages, and the RTT recorded at the moment the group is snapshotted
(`upstream::rtt`).  `adjust_rtt` only affects later dispatches, never the
order within the dispatch that called it, so the RTT is a plain field. -/
structure UpstreamInfo where
  uid : Nat
  options_id : Option Int
  address : String
  rtt : Nat
deriving DecidableEq, Repr

/-- `ag::upstream::TIMEOUT_STR` (upstream.h, not under src/); the dispatcher
only compares error strings against it, so the exact text is immaterial. -/
def TIMEOUT_STR : String := "timed out"

/-- The combined error message of dns_forwarder.cpp:1175. -/
def combinedErr (address e1 e2 : String) : String :=
  "Upstream (" ++ address ++ ") exchange failed: first reason is " ++ e1
    ++ ", second is: " ++ e2

/-- The external collaborators of the forwarder, as oracle functions:
filter matching and rule prioritisation, upstream exchanges (keyed by
upstream identity and attempt index within the dispatch), the DNS64
auxiliary exchange and address synthesis, and the address utilities. -/
structure Env where
  now : Int
  wall_now : Nat
  random_id : Nat
  is_valid_ip4 : String → Bool
  addr_to_str : List Nat → String
  filter_match : String → List Rule
  get_effective_rules : List Rule → List Rule
  exchange : Nat → Nat → Except String Pkt
  dns64_exchange : Nat → Pkt → Except String Pkt
  synth : List Nat → List Nat → Option (List Nat)

/-- Order by recorded RTT, the comparator of dns_forwarder.cpp:1154. -/
def rttLE (a b : UpstreamInfo) : Prop := a.rtt ≤ b.rtt

instance : DecidableRel rttLE := fun a b => Nat.decLe a.rtt b.rtt

instance : IsTotal UpstreamInfo rttLE := ⟨fun a b => Nat.le_total a.rtt b.rtt⟩

instance : IsTrans UpstreamInfo rttLE := ⟨fun _ _ _ hab hbc => Nat.le_trans hab hbc⟩

/-- Snapshot-and-sort of a group (dns_forwarder.cpp:1149-1156).  `std::sort`
produces some RTT-sorted permutation; the model uses insertion sort, which
is one such permutation. -/
def sortByRtt (l : List UpstreamInfo) : List UpstreamInfo :=
  l.insertionSort rttLE

/-- The state of the dispatch loop over one group: the successful packet and
its upstream (if any), the accumulated error string, the last tried
upstream, and the trace of exchange calls `(upstream, attempt)` in the order
they were made (attempt 0 is the first call, attempt 1 the one-shot retry). -/
structure TryResult where
  success : Option (Pkt × UpstreamInfo)
  errStr : String
  last : Option UpstreamInfo
  trace : List (UpstreamInfo × Nat)
deriving Repr

/-- The inner loop of `do_upstream_exchange` (dns_forwarder.cpp:1158-1182)
over one sorted group: exchange; on success return; on a timeout error move
on; on any other error retry the same upstream once, return its packet on
success, otherwise record the combined error message and move on. -/
def tryUpstreams (env : Env) : List UpstreamInfo → String → Option UpstreamInfo → TryResult
  | [], err, cur => ⟨none, err, cur, []⟩
  | u :: rest, err, _ =>
    match env.exchange u.uid 0 with
    | .ok pkt => ⟨some (pkt, u), err, some u, [(u, 0)]⟩
    | .error e =>
      if e = TIMEOUT_STR then
        let r := tryUpstreams env rest err (some u)
        ⟨r.success, r.errStr, r.last, (u, 0) :: r.trace⟩
      else
        match env.exchange u.uid 1 with
        | .ok pkt => ⟨some (pkt, u), err, some u, [(u, 0), (u, 1)]⟩
        | .error e2 =>
          let r := tryUpstreams env rest (combinedErr u.address e e2) (some u)
          ⟨r.success, r.errStr, r.last, (u, 0) :: (u, 1) :: r.trace⟩

/-- `ag::upstream_exchange_result` extended with the trace of exchange calls
made during the dispatch. -/
structure DispatchResult where
  response : Option Pkt
  error : Option String
  upstream : Option UpstreamInfo
  trace : List (UpstreamInfo × Nat)
deriving Repr

/-- `dns_forwarder::do_upstream_exchange` (dns_forwarder.cpp:1144): try the
primaries group, then the fallbacks group, each snapshotted and sorted by
RTT; the error string and last-tried upstream persist across groups. -/
def do_upstream_exchange (env : Env) (prims fbs : List UpstreamInfo) : DispatchResult :=
  let r1 := tryUpstreams env (sortByRtt prims) "" none
  match r1.success with
  | some pu => ⟨some pu.1, none, some pu.2, r1.trace⟩
  | none =>
    let r2 := tryUpstreams env (sortByRtt fbs) r1.errStr r1.last
    match r2.success with
    | some pu => ⟨some pu.1, none, some pu.2, r1.trace ++ r2.trace⟩
    | none => ⟨none, some r2.errStr, r2.last, r1.trace ++ r2.trace⟩

/-! ### DNS64 synthesis -/

/-- The auxiliary A query of `try_dns64_aaaa_synthesis`
(dns_forwarder.cpp:471-476): same owner, type A, class IN, zero flags, then
CD and RD copied from the AAAA request and a fresh random id. -/
def make_a_request (randomId : Nat) (request : Pkt) (q : Question) : Pkt :=
  { Pkt.empty with
      id := randomId, qdcount := 1, question := [⟨q.qname, .A, 1⟩],
      cd := request.cd, rd := request.rd }

/-- The record loop of `try_dns64_aaaa_synthesis` (dns_forwarder.cpp:491-524):
non-A records are cloned in place; for an A record, every known prefix that
synthesizes successfully contributes one clone retyped to AAAA whose last
rdata field is replaced by the synthesized 16-byte address.  Returns the
record list and the number of AAAA records synthesized. -/
def synth_rrs (synth : List Nat → List Nat → Option (List Nat))
    (prefixes : List (List Nat)) : List Rr → List Rr × Nat
  | [] => ([], 0)
  | rr :: rest =>
    let tail := synth_rrs synth prefixes rest
    if rr.rtype ≠ .A then (rr :: tail.1, tail.2)
    else
      match rr.rdfs.head? with
      | none => tail
      | some rdf =>
        let ip4 := rdfData rdf
        let news := prefixes.filterMap (fun pre =>
          (synth pre ip4).map (fun ip6 =>
            { rr with rtype := RrType.AAAA, rdfs := rr.rdfs.dropLast ++ [Rdf.aaaaData ip6] }))
        (news ++ tail.1, news.length + tail.2)

/-- `dns_forwarder::try_dns64_aaaa_synthesis` (dns_forwarder.cpp:457).
`uid` identifies the upstream the original exchange used; `prefixes` is the
discovered prefix set read under the lock. -/
def try_dns64_aaaa_synthesis (env : Env) (uid : Nat) (prefixes : List (List Nat))
    (request : Pkt) : Option Pkt :=
  if prefixes.isEmpty then none
  else
    match request.question.head? with
    | none => none
    | some q =>
      match env.dns64_exchange uid (make_a_request env.random_id request q) with
      | .error _ => none
      | .ok response_a =>
        if response_a.answer.length = 0 then none
        else
          let res := synth_rrs env.synth prefixes response_a.answer
          if res.2 = 0 then none
          else
            some { Pkt.empty with
              id := request.id, rd := request.rd, ra := response_a.ra,
              cd := response_a.cd, qr := true,
              qdcount := request.qdcount, question := request.question,
              answer := res.1 }

/-! ### The request pipeline -/

/-- The forwarder state a single `handle_message` call reads: the settings,
the shared response cache, the two upstream groups and the DNS64 prefix
set.  The asynchronous optimistic-refresh task queue is concurrency and is
not part of the shallow embedding; the expired-entry branch that would
enqueue a task is noted in `handle_message` below. -/
structure FwdState where
  settings : Settings
  cache : LruCache CachedResponse
  upstreams : List UpstreamInfo
  fallbacks : List UpstreamInfo
  dns64_prefixes : List (List Nat)

/-- `dns_forwarder::apply_filter` (dns_forwarder.cpp:1107): match the
hostname, append the effective rules carried from earlier stages, select the
effective rules; if none apply or the decisive rule is an exception, no
blocking response; otherwise the blocking response.  Returns the optional
blocking response and the new carried rule list (the source stores the
selected effective rules back into `last_effective_rules` in either case). -/
def apply_filter (env : Env) (s : Settings) (hostname : String) (request : Pkt)
    (last_effective_rules : List Rule) : Option Pkt × List Rule :=
  let rules := env.filter_match hostname ++ last_effective_rules
  let eff := env.get_effective_rules rules
  match eff.head? with
  | none => (none, eff)
  | some r0 =>
    if r0.exception then (none, eff)
    else (some (create_blocking_response env.is_valid_ip4 env.wall_now request s eff), eff)

/-- The post-filter loop of `handle_message` (dns_forwarder.cpp:1017-1031)
together with `apply_cname_filter` and `apply_ip_filter`: walk the answer
records; re-filter CNAME targets (stripped of the trailing dot) and
stringified A/AAAA addresses (only for fields of 4 or 16 bytes); the first
blocking result returns. -/
def post_filter_answers (env : Env) (s : Settings) (request : Pkt) :
    List Rr → List Rule → Option Pkt
  | [], _ => none
  | rr :: rest, last_rules =>
    if rr.rtype = .CNAME then
      match rr.rdfs.head? with
      | none => post_filter_answers env s request rest last_rules
      | some rdf =>
        let cname := stripDot (rdfStr rdf)
        match apply_filter env s cname request last_rules with
        | (some b, _) => some b
        | (none, lr) => post_filter_answers env s request rest lr
    else if rr.rtype = .A ∨ rr.rtype = .AAAA then
      match rr.rdfs.head? with
      | none => post_filter_answers env s request rest last_rules
      | some rdf =>
        let b := rdfData rdf
        if b.length = 4 ∨ b.length = 16 then
          match apply_filter env s (env.addr_to_str b) request last_rules with
          | (some bp, _) => some bp
          | (none, lr) => post_filter_answers env s request rest lr
        else post_filter_answers env s request rest last_rules
    else post_filter_answers env s request rest last_rules

/-- The options id the event reports for a dispatch result. -/
def upstreamOptId (d : DispatchResult) : Option Int :=
  match d.upstream with
  | some u => u.options_id
  | none => none

/-- The tail of `handle_message` after a successful upstream exchange
(dns_forwarder.cpp:1012-1057): under NOERROR run the post-filter (a blocking
result returns without a cache insert), then DNS64 synthesis for an AAAA
query whose answer holds no AAAA record; finally insert the (possibly
replaced) response into the cache. -/
def after_exchange (env : Env) (st : FwdState) (q : Question) (key : String)
    (c1 : LruCache CachedResponse) (request : Pkt) (d : DispatchResult)
    (resp : Pkt) (eff_rules : List Rule) : Pkt × LruCache CachedResponse :=
  if resp.rcode = .NOERROR then
    match post_filter_answers env st.settings request resp.answer eff_rules with
    | some b => (b, c1)
    | none =>
      let resp2 :=
        if st.settings.dns64_enabled ∧ q.qtype = .AAAA
            ∧ resp.answer.all (fun rr => decide (rr.rtype ≠ .AAAA)) then
          match d.upstream with
          | some u => (try_dns64_aaaa_synthesis env u.uid st.dns64_prefixes request).getD resp
          | none => resp
        else resp
      (resp2, put_response_into_cache st.settings c1 env.now key resp2 (upstreamOptId d))
  else (resp, put_response_into_cache st.settings c1 env.now key resp (upstreamOptId d))

/-- The pipeline of `handle_message` past the cache lookup
(dns_forwarder.cpp:963-1057): Mozilla-canary short-circuit, IPv6 hard block,
pre-filter, upstream dispatch, and the post-exchange tail. -/
def handle_pipeline (env : Env) (st : FwdState) (q : Question) (key : String)
    (c1 : LruCache CachedResponse) (request : Pkt) : Pkt × LruCache CachedResponse :=
  if (q.qtype = .A ∨ q.qtype = .AAAA) ∧ q.qname = MOZILLA_DOH_HOST then
    (create_nxdomain_response env.wall_now request st.settings, c1)
  else
    let pure_domain := stripDot q.qname
    if st.settings.block_ipv6 ∧ q.qtype = .AAAA then
      match apply_filter env st.settings pure_domain request [] with
      | (some bresp, _) =>
        if bresp.rcode = .NOERROR then
          (create_soa_response env.wall_now request st.settings SOA_RETRY_IPV6_BLOCK, c1)
        else (bresp, c1)
      | (none, _) =>
        (create_soa_response env.wall_now request st.settings SOA_RETRY_IPV6_BLOCK, c1)
    else
      match apply_filter env st.settings pure_domain request [] with
      | (some bresp, _) => (bresp, c1)
      | (none, eff_rules) =>
        let d := do_upstream_exchange env st.upstreams st.fallbacks
        match d.response with
        | none => (create_servfail_response request, c1)
        | some resp => after_exchange env st q key c1 request d resp eff_rules

/-- `dns_forwarder::handle_message` (dns_forwarder.cpp:905), over an already
parsed request (wire codec out of scope): validate the question, look up the
cache, serve a hit (an expired hit is still served when the optimistic cache
is enabled — the refresh task it enqueues is concurrency outside this
embedding — and falls through to the pipeline otherwise).  Returns the
response and the cache state after the call. -/
def handle_message (env : Env) (st : FwdState) (request : Pkt) :
    Pkt × LruCache CachedResponse :=
  match request.question.head? with
  | none => (create_servfail_response request, st.cache)
  | some q =>
    let key := get_cache_key request
    let looked := create_response_from_cache st.settings st.cache env.now key request
    match looked.1.response with
    | some resp =>
      if looked.1.expired && !st.settings.optimistic_cache then
        handle_pipeline env st q key looked.2 request
      else (resp, looked.2)
    | none => handle_pipeline env st q key looked.2 request

/-! ### The cacheability condition of the specification -/

/-- The cacheability condition, stated as the specification's rule list
(§4.2) with the minimum-TTL condition computed as the source computes it
(`compute_min_rr_ttl`, with its `UINT32_MAX` sentinel): cache enabled, not
truncated, exactly one question, NOERROR, no unsupported EDNS extensions,
an A/AAAA question answered with at least one record of its type, and a
computed minimum RR TTL of at least 1. -/
def cacheable_response (s : Settings) (response : Pkt) : Bool :=
  decide (0 < s.dns_cache_size) && decide (response.tc = false)
    && decide (response.qdcount = 1) && decide (response.rcode = Rcode.NOERROR)
    && decide (has_unsupported_extensions response = false)
    && (match response.question.head? with
        | some q =>
          if q.qtype = .A ∨ q.qtype = .AAAA
          then response.answer.any (fun rr => decide (rr.rtype = q.qtype))
          else true
        | none => true)
    && decide (1 ≤ compute_min_rr_ttl response)

/-- An upstream on which both permitted exchange attempts fail: the first
attempt errors, and when that error is not the timeout error, the one-shot
retry errors as well. -/
def upstream_fails (env : Env) (u : UpstreamInfo) : Prop :=
  ∃ e, env.exchange u.uid 0 = .error e
    ∧ (e ≠ TIMEOUT_STR → ∃ e2, env.exchange u.uid 1 = .error e2)

/-! ### Concrete fixtures for the witness and counterexample theorems -/

/-- An A question for example.com. -/
def exQ : Question := ⟨"example.com.", .A, 1⟩

/-- A plain A request with id 0x1234. -/
def exReq : Pkt := { Pkt.empty with id := 4660, qdcount := 1, question := [exQ], rd := true }

/-- One stored answer record with TTL 300. -/
def exAnswerRr : Rr := ⟨"example.com.", 300, .A, 1, [.raw [1, 2, 3, 4]]⟩

/-- A stored response template (question stripped, as `put` stores it). -/
def exTemplate : Pkt := { Pkt.empty with qr := true, answer := [exAnswerRr] }

/-- A cache entry expiring at 300000 ms. -/
def exEntry : CachedResponse := ⟨exTemplate, 300000, some 7⟩

/-- Baseline settings: cache of 10 entries, DEFAULT blocking, TTL 3600. -/
def exSettings : Settings := ⟨10, false, false, .DEFAULT, 3600, "", "", false⟩

/-- A cache holding `exEntry` under the fingerprint of `exReq`. -/
def exCache : LruCache CachedResponse := ⟨10, [(get_cache_key exReq, exEntry)]⟩

/-- A two-entry cache for observing LRU positions. -/
def c3Cache : LruCache CachedResponse := ⟨10, [("a.", exEntry), ("b.", exEntry)]⟩

/-- A TXT answer record carrying the maximal 32-bit TTL. -/
def c2Rr : Rr := ⟨"example.com.", 4294967295, .OTHER 16, 1, []⟩

/-- A cacheable-looking TXT response whose only RR TTL is `UINT32_MAX`. -/
def c2Resp : Pkt :=
  { Pkt.empty with
      qr := true, qdcount := 1,
      question := [⟨"example.com.", (.OTHER 16), 1⟩], answer := [c2Rr] }

/-- An empty cache with room for 10 entries. -/
def c2EmptyCache : LruCache CachedResponse := ⟨10, []⟩

/-- The shape of the negative "blocking" answer the specification calls
SOA(retry): NOERROR, empty answer, the request's id, and exactly one SOA in
the authority section carrying the given RETRY value and the blocked TTL. -/
def is_soa_blocking (request : Pkt) (s : Settings) (retry : Nat) (resp : Pkt) : Prop :=
  resp.rcode = .NOERROR ∧ resp.answer = [] ∧ resp.id = request.id
    ∧ ∃ soa, resp.authority = [soa] ∧ soa.rtype = .SOA ∧ soaRetryOf soa = some retry
      ∧ soa.ttl = s.blocked_response_ttl_secs

/-- A hosts-style rule carrying 10.0.0.1. -/
def c4Rule1 : Rule := ⟨"rule1", 1, some "10.0.0.1", false⟩

/-- A hosts-style rule carrying 10.0.0.2. -/
def c4Rule2 : Rule := ⟨"rule2", 1, some "10.0.0.2", false⟩

/-- A concrete stand-in for `utils::is_valid_ip4`, deciding the two rule
addresses used in the fixtures. -/
def c4Ip4 : String → Bool := fun s => s == "10.0.0.1" || s == "10.0.0.2"

/-- An A request for cdn.example. -/
def c4Req : Pkt :=
  { Pkt.empty with id := 5, qdcount := 1, question := [⟨"cdn.example.", .A, 1⟩], rd := true }

/-- A request carrying EDNS data (an unsupported extension). -/
def c10Req : Pkt := { exReq with edns_data := true }

/-- A cache that does hold an entry for the fingerprint of `c10Req`. -/
def c10Cache : LruCache CachedResponse := ⟨10, [(get_cache_key c10Req, exEntry)]⟩

/-- A baseline oracle environment: empty filter, identity rule selection,
failing exchanges, no DNS64 synthesis. -/
def trivEnv : Env :=
  ⟨0, 1000, 99, c4Ip4, fun _ => "", fun _ => [], fun l => l,
   fun _ _ => .error "e", fun _ _ => .error "e", fun _ _ => none⟩

/-- A primary upstream with RTT 50. -/
def c8uA : UpstreamInfo := ⟨0, some 0, "a", 50⟩

/-- A primary upstream with RTT 10. -/
def c8uB : UpstreamInfo := ⟨1, some 1, "b", 10⟩

/-- A fallback upstream with RTT 5. -/
def c8uF : UpstreamInfo := ⟨2, some 2, "f", 5⟩

/-- A concrete exchange oracle: upstream 1 times out, upstream 0 fails both
attempts with distinct errors, upstream 2 succeeds. -/
def c8exch : Nat → Nat → Except String Pkt := fun uid att =>
  if uid = 1 then Except.error TIMEOUT_STR
  else if uid = 0 then
    (if att = 0 then Except.error "refused" else Except.error "refused2")
  else Except.ok { Pkt.empty with id := 42 }

/-- The dispatcher environment of the concrete dispatch scenario. -/
def c8Env : Env := { trivEnv with exchange := c8exch }

/-- A plain blocking rule with no IP (adblock-style, no exception). -/
def c5Rule : Rule := ⟨"||host.example^", 1, none, false⟩

/-- An environment whose filter matches `c5Rule` on every hostname. -/
def c5Env : Env := { trivEnv with filter_match := fun _ => [c5Rule] }

/-- Settings with the IPv6 hard block and REFUSED blocking mode. -/
def c5Settings : Settings := { exSettings with block_ipv6 := true, blocking_mode := .REFUSED }

/-- Forwarder state for the IPv6-block counterexample. -/
def c5St : FwdState := ⟨c5Settings, ⟨10, []⟩, [⟨0, some 1, "u", 10⟩], [], []⟩

/-- An AAAA request for host.example. -/
def c5Req : Pkt :=
  { Pkt.empty with id := 7, qdcount := 1, question := [⟨"host.example.", .AAAA, 1⟩] }

/-- Forwarder state with the IPv6 hard block and an empty filter. -/
def c5wSt : FwdState :=
  ⟨{ exSettings with block_ipv6 := true }, ⟨10, []⟩, [⟨0, some 1, "u", 10⟩], [], []⟩

/-- An A request for the Mozilla canary domain. -/
def c6Req : Pkt :=
  { Pkt.empty with id := 8, qdcount := 1, question := [⟨"use-application-dns.net.", .A, 1⟩] }

/-- Forwarder state for the canary scenario. -/
def c6St : FwdState := ⟨exSettings, ⟨10, []⟩, [⟨0, some 1, "u", 10⟩], [], []⟩

/-- A second environment for the canary noninterference run: different
filter results and upstream behavior, same clock and DNS64 oracles. -/
def c6Env2 : Env :=
  { trivEnv with
      filter_match := fun _ => [c5Rule],
      get_effective_rules := fun l => l,
      exchange := fun _ _ => Except.ok { Pkt.empty with id := 1 } }

/-- The A response the DNS64 auxiliary exchange returns: two A records for
ipv4only.arpa. -/
def c9RespA : Pkt :=
  { Pkt.empty with
      ra := true, cd := true,
      answer := [⟨"ipv4only.arpa.", 60, .A, 1, [.raw [192, 0, 0, 170]]⟩,
                 ⟨"ipv4only.arpa.", 60, .A, 1, [.raw [192, 0, 0, 171]]⟩] }

/-- A synthesis oracle embedding the IPv4 address after a 12-byte prefix. -/
def c9Synth : List Nat → List Nat → Option (List Nat) := fun pre ip4 =>
  if pre.length = 12 then some (pre ++ ip4) else none

/-- The DNS64 environment of the synthesis scenario. -/
def c9Env : Env :=
  { trivEnv with dns64_exchange := fun _ _ => Except.ok c9RespA, synth := c9Synth }

/-- An AAAA request for ipv4only.arpa. -/
def c9Req : Pkt :=
  { Pkt.empty with id := 9, qdcount := 1, rd := true, question := [⟨"ipv4only.arpa.", .AAAA, 1⟩] }

/-- One discovered 96-bit (12-byte) DNS64 prefix. -/
def c9Prefixes : List (List Nat) := [[0, 0, 0, 0, 0, 0, 0, 0, 0, 0, 0, 0]]

/-! ### Arithmetic and list helpers -/

/-- A positive millisecond duration rounds up to at least one second. -/
theorem ceilSecMs_pos_of_pos {r : Int} (h : 0 < r) : 1 ≤ ceilSecMs r := by
  unfold ceilSecMs
  omega

/-- Every record of a packet whose TTLs were all set carries that TTL. -/
theorem mem_set_all_ttls {t : Nat} {p : Pkt} {rr : Rr}
    (h : rr ∈ (set_all_ttls t p).answer ++ (set_all_ttls t p).authority
          ++ (set_all_ttls t p).additional) :
    rr.ttl = t := by
  simp only [set_all_ttls, List.mem_append, List.mem_map] at h
  rcases h with (⟨a, _, rfl⟩ | ⟨a, _, rfl⟩) | ⟨a, _, rfl⟩ <;> rfl

/-! ### C10 -/

/-- C10: a lookup for a request that carries unsupported EDNS extensions is
a miss that consults no entry: the result is the empty cache result, and
the cache state is returned unchanged, whatever it holds. -/
theorem c10_unsupported_extensions_miss (s : Settings) (cache : LruCache CachedResponse)
    (now : Int) (key : String) (request : Pkt)
    (h : has_unsupported_extensions request = true) :
    create_response_from_cache s cache now key request = (⟨none, none, false⟩, cache) := by
  unfold create_response_from_cache
  by_cases hsz : s.dns_cache_size = 0 <;> simp [hsz, h]

/-- C10 witness: the concrete EDNS-bearing request misses even though the
cache holds an entry under its exact fingerprint. -/
theorem c10_witness :
    create_response_from_cache exSettings c10Cache 0 (get_cache_key c10Req) c10Req
        = (⟨none, none, false⟩, c10Cache)
      ∧ c10Cache.find? (get_cache_key c10Req) = some exEntry := by
  exact ⟨c10_unsupported_extensions_miss exSettings c10Cache 0 (get_cache_key c10Req)
      c10Req (by decide), by decide⟩

/-! ### C1 -/

/-- C1: a lookup that hits a live entry (stored at `t0` with minimum RR TTL
`tau`, looked up at `t0 ≤ t < t0 + tau`) returns a response whose id is the
live request's id and whose every RR TTL in the answer, authority and
additional sections equals `ceil(t0 + tau - t)` clamped to at least 1, and
does not report expiry. -/
theorem c1_cache_hit_ttl_patch (s : Settings) (cache : LruCache CachedResponse)
    (key : String) (request : Pkt) (entry : CachedResponse) (t0 : Int) (tau : Nat) (t : Int)
    (hsz : s.dns_cache_size ≠ 0)
    (hext : has_unsupported_extensions request = false)
    (hfind : cache.entries.find? (fun e => e.1 == key) = some (key, entry))
    (hexp : entry.expires_at = t0 + 1000 * (tau : Int))
    (h1 : t0 ≤ t) (h2 : t < t0 + 1000 * (tau : Int)) :
    ∃ resp, (create_response_from_cache s cache t key request).1.response = some resp
      ∧ resp.id = request.id
      ∧ (create_response_from_cache s cache t key request).1.expired = false
      ∧ ∀ rr ∈ resp.answer ++ resp.authority ++ resp.additional,
          (rr.ttl : Int) = max 1 (ceilSecMs (t0 + 1000 * (tau : Int) - t)) := by
  have hget : cache.get key
      = (some entry, ⟨cache.capacity, (key, entry) :: cache.entries.eraseP (fun x => x.1 == key)⟩) := by
    unfold LruCache.get
    rw [hfind]
  have hpos : 0 < entry.expires_at - t := by omega
  have hle : 1 ≤ ceilSecMs (entry.expires_at - t) := ceilSecMs_pos_of_pos hpos
  have hnotexp : ¬ (ceilSecMs (entry.expires_at - t) ≤ 0) := by omega
  unfold create_response_from_cache
  rw [if_neg hsz, if_neg (by simp [hext]), hget]
  refine ⟨_, rfl, rfl, by simp [hnotexp], ?_⟩
  intro rr hrr
  have httl := mem_set_all_ttls hrr
  rw [httl, if_neg hnotexp, ← hexp]
  have : (0 : Int) ≤ ceilSecMs (entry.expires_at - t) := by omega
  omega

/-- C1 witness: the entry stored at 0 ms with minimum TTL 300 s, looked up
at 10500 ms by a request with id 0x1234, yields TTL 290 and id 0x1234. -/
theorem c1_witness :
    ∃ resp, (create_response_from_cache exSettings exCache 10500 (get_cache_key exReq) exReq).1.response
        = some resp
      ∧ resp.id = exReq.id
      ∧ (create_response_from_cache exSettings exCache 10500 (get_cache_key exReq) exReq).1.expired = false
      ∧ ∀ rr ∈ resp.answer ++ resp.authority ++ resp.additional,
          (rr.ttl : Int) = max 1 (ceilSecMs (0 + 1000 * (300 : Nat) - 10500)) := by
  exact c1_cache_hit_ttl_patch exSettings exCache (get_cache_key exReq) exReq exEntry
    0 300 10500 (by decide) (by decide) (by decide) (by decide) (by decide) (by decide)

/-! ### C3 -/

/-- C3 counterexample: looking up the expired entry under key "b." in a
two-entry cache serves it (TTL forced to 1, `expired = true`) but moves it
to the least-recently-used position, not the most-recently-used one the
claim states: after the lookup the entry order is ["a.", "b."], so the
head of the LRU is "a.", not "b.". -/
theorem c3_counterexample :
    (create_response_from_cache exSettings c3Cache 400000 ("b.") exReq).1.expired = true
      ∧ ((create_response_from_cache exSettings c3Cache 400000 ("b.") exReq).2.entries.map
          Prod.fst = ["a.", "b."])
      ∧ ¬ ((create_response_from_cache exSettings c3Cache 400000 ("b.") exReq).2.entries.head?.map
          Prod.fst = some ("b.")) := by
  decide

/-- C3 as amended: a lookup that hits an entry whose remaining TTL has run
out serves the patched response with every RR TTL forced to 1, reports
`expired = true`, and moves the entry to the least-recently-used position
(the end of the recency list). -/
theorem c3_expired_lookup (s : Settings) (cache : LruCache CachedResponse)
    (key : String) (request : Pkt) (entry : CachedResponse) (now : Int)
    (hsz : s.dns_cache_size ≠ 0)
    (hext : has_unsupported_extensions request = false)
    (hfind : cache.entries.find? (fun e => e.1 == key) = some (key, entry))
    (hexp : ceilSecMs (entry.expires_at - now) ≤ 0) :
    (create_response_from_cache s cache now key request).1.expired = true
      ∧ (∃ resp, (create_response_from_cache s cache now key request).1.response = some resp
          ∧ ∀ rr ∈ resp.answer ++ resp.authority ++ resp.additional, rr.ttl = 1)
      ∧ (create_response_from_cache s cache now key request).2.entries
          = cache.entries.eraseP (fun x => x.1 == key) ++ [(key, entry)] := by
  have hget : cache.get key
      = (some entry, ⟨cache.capacity, (key, entry) :: cache.entries.eraseP (fun x => x.1 == key)⟩) := by
    unfold LruCache.get
    rw [hfind]
  unfold create_response_from_cache
  rw [if_neg hsz, if_neg (by simp [hext]), hget]
  refine ⟨by simp [hexp], ⟨_, rfl, ?_⟩, ?_⟩
  · intro rr hrr
    have httl := mem_set_all_ttls hrr
    rw [httl, if_pos hexp]
  · simp only [if_pos hexp]
    unfold LruCache.make_lru
    rw [List.find?_cons_of_pos _ (by simp)]
    simp [List.eraseP_cons_of_pos]

/-- C3 witness: the concrete expired lookup of the counterexample, through
the amended theorem. -/
theorem c3_witness :
    (create_response_from_cache exSettings c3Cache 400000 ("a.") exReq).1.expired = true
      ∧ (∃ resp, (create_response_from_cache exSettings c3Cache 400000 ("a.") exReq).1.response
            = some resp
          ∧ ∀ rr ∈ resp.answer ++ resp.authority ++ resp.additional, rr.ttl = 1)
      ∧ (create_response_from_cache exSettings c3Cache 400000 ("a.") exReq).2.entries
          = c3Cache.entries.eraseP (fun x => x.1 == ("a." : String)) ++ [(("a." : String), exEntry)] := by
  exact c3_expired_lookup exSettings c3Cache ("a.") exReq exEntry 400000
    (by decide) (by decide) (by decide) (by decide)

/-! ### C2 -/

/-- The A/AAAA-answer conjunct of `cacheable_response` is the negation of
the early-exit check `type_check_fails` of the source. -/
theorem type_check_match_eq (response : Pkt) :
    (match response.question.head? with
      | some q =>
        if q.qtype = RrType.A ∨ q.qtype = RrType.AAAA
        then response.answer.any (fun rr => decide (rr.rtype = q.qtype))
        else true
      | none => true) = !(type_check_fails response) := by
  unfold type_check_fails
  cases h : response.question.head? with
  | none => simp
  | some q =>
    by_cases ht : q.qtype = RrType.A ∨ q.qtype = RrType.AAAA
    · simp only [if_pos ht]
      rcases ht with ht | ht <;> simp [ht]
    · rw [not_or] at ht
      simp [ht.1, ht.2]

/-- C2 counterexample: a response satisfying every condition of the claim —
capacity 1 ≤ 10, not truncated, one TXT question, NOERROR, no EDNS
extensions, and a non-empty answer section whose every (hence minimum) RR
TTL is `4294967295 ≥ 1` — is nevertheless not inserted: the source's
`compute_min_rr_ttl` collapses a minimum of exactly `UINT32_MAX` to 0 and
the cache is left unchanged. -/
theorem c2_counterexample :
    (0 < exSettings.dns_cache_size ∧ c2Resp.tc = false ∧ c2Resp.qdcount = 1
        ∧ c2Resp.rcode = .NOERROR ∧ has_unsupported_extensions c2Resp = false
        ∧ c2Resp.answer ≠ []
        ∧ ∀ rr ∈ c2Resp.answer ++ c2Resp.authority ++ c2Resp.additional, 1 ≤ rr.ttl)
      ∧ put_response_into_cache exSettings c2EmptyCache 0 ("k") c2Resp none = c2EmptyCache
      ∧ c2EmptyCache.entries = [] := by
  decide

/-- C2 as amended: `put_response_into_cache` inserts exactly when the
specification's cacheability conditions hold, with the minimum-TTL condition
computed as the source computes it (so a minimum of exactly `2^32 - 1` also
rejects); the stored entry is the response with the question stripped and AA
cleared, expiring `min_rr_ttl` seconds from now; in every other case the
cache is returned unchanged. -/
theorem c2_put_iff_cacheable (s : Settings) (cache : LruCache CachedResponse)
    (now : Int) (key : String) (response : Pkt) (uid : Option Int) :
    put_response_into_cache s cache now key response uid
      = if cacheable_response s response
        then cache.insert key
          ⟨{ response with question := [], qdcount := 0, aa := false },
            now + 1000 * (compute_min_rr_ttl response : Int), uid⟩
        else cache := by
  unfold put_response_into_cache cacheable_response
  rw [type_check_match_eq]
  by_cases h1 : s.dns_cache_size = 0
  · simp [h1]
  · rw [if_neg h1]
    by_cases h2 : response.tc = true ∨ response.qdcount ≠ 1
        ∨ response.rcode ≠ Rcode.NOERROR ∨ has_unsupported_extensions response = true
    · rw [if_pos h2]
      rcases h2 with h | h | h | h <;> simp [h]
    · rw [if_neg h2]
      push_neg at h2
      obtain ⟨htc, hqd, hrc, hun⟩ := h2
      simp only [ne_eq, Bool.not_eq_true] at htc hun
      by_cases h3 : type_check_fails response = true
      · rw [if_pos h3]
        simp [h3]
      · rw [if_neg h3]
        simp only [Bool.not_eq_true] at h3
        have hmin : compute_min_rr_ttl
            { response with question := [], qdcount := 0, aa := false }
            = compute_min_rr_ttl response := rfl
        have hcond : (decide (0 < s.dns_cache_size) && decide (response.tc = false)
              && decide (response.qdcount = 1) && decide (response.rcode = Rcode.NOERROR)
              && decide (has_unsupported_extensions response = false)
              && !type_check_fails response
              && decide (1 ≤ compute_min_rr_ttl response))
            = decide (1 ≤ compute_min_rr_ttl response) := by
          simp [htc, hqd, hrc, hun, h3, Nat.pos_of_ne_zero h1]
        rw [hmin, hcond]
        by_cases h4 : compute_min_rr_ttl response = 0
        · rw [if_pos h4, if_neg (by simp [h4])]
        · rw [if_neg h4, if_pos (by simp [Nat.one_le_iff_ne_zero, h4])]

/-! ### C4 -/

/-- `create_soa_response` has the SOA(retry) shape. -/
theorem soa_response_shape (wallNow : Nat) (request : Pkt) (s : Settings) (retry : Nat) :
    is_soa_blocking request s retry (create_soa_response wallNow request s retry) := by
  exact ⟨rfl, rfl, rfl, create_soa wallNow request s retry, rfl, rfl, rfl, rfl⟩

/-- C4 counterexample: an A query decided by two hosts-style rules carrying
10.0.0.1 and 10.0.0.2 (the claim's premise: decisive rule hosts-style with
real IPs, no blocking IP) is answered with ONE answer record whose rdata
list holds both addresses — not with two answer records as the claim
states. -/
theorem c4_counterexample :
    [c4Rule1, c4Rule2].head?.map Rule.ip = some (some ("10.0.0.1"))
      ∧ rules_contain_blocking_ip [c4Rule1, c4Rule2] = false
      ∧ qtypeOf c4Req = .A
      ∧ (create_blocking_response c4Ip4 1000 c4Req exSettings [c4Rule1, c4Rule2]).answer.length = 1
      ∧ ¬ ((create_blocking_response c4Ip4 1000 c4Req exSettings [c4Rule1, c4Rule2]).answer.length = 2)
      ∧ (create_blocking_response c4Ip4 1000 c4Req exSettings [c4Rule1, c4Rule2]).answer.map Rr.rdfs
          = [[Rdf.a4 ("10.0.0.1"), Rdf.a4 ("10.0.0.2")]] := by
  decide

/-- C4 as amended: for a decisive hosts-style rule with real (non-blocking)
IPs, in every blocking mode: an A (resp. AAAA) query is answered with a
single answer record of the query type whose rdata fields are the rule IPs
of the matching address family in rule order, with the blocked-response TTL,
or with SOA(900) when no rule IP matches the family; a query of any other
type is answered with SOA(900) in DEFAULT, UNSPECIFIED_ADDRESS and
CUSTOM_ADDRESS modes, with REFUSED in REFUSED mode, and with NXDOMAIN (plus
an SOA with RETRY 900) in NXDOMAIN mode. -/
theorem c4_hosts_rules_blocking (ip4 : String → Bool) (wallNow : Nat) (request : Pkt)
    (s : Settings) (rules : List Rule) (r0 : Rule) (q : Question)
    (hq : request.question.head? = some q)
    (hhead : rules.head? = some r0)
    (hip : r0.ip ≠ none)
    (hblk : rules_contain_blocking_ip rules = false) :
    (q.qtype = .A →
        (rules.filter (fun r => ip4 (ruleIp r)) ≠ [] →
          (create_blocking_response ip4 wallNow request s rules).answer
              = [⟨q.qname, s.blocked_response_ttl_secs, .A, 1,
                  (rules.filter (fun r => ip4 (ruleIp r))).map (fun r => Rdf.a4 (ruleIp r))⟩]
            ∧ (create_blocking_response ip4 wallNow request s rules).rcode = .NOERROR
            ∧ (create_blocking_response ip4 wallNow request s rules).id = request.id)
        ∧ (rules.filter (fun r => ip4 (ruleIp r)) = [] →
            is_soa_blocking request s 900 (create_blocking_response ip4 wallNow request s rules)))
    ∧ (q.qtype = .AAAA →
        (rules.filter (fun r => !(ip4 (ruleIp r))) ≠ [] →
          (create_blocking_response ip4 wallNow request s rules).answer
              = [⟨q.qname, s.blocked_response_ttl_secs, .AAAA, 1,
                  (rules.filter (fun r => !(ip4 (ruleIp r)))).map (fun r => Rdf.a6 (ruleIp r))⟩]
            ∧ (create_blocking_response ip4 wallNow request s rules).rcode = .NOERROR
            ∧ (create_blocking_response ip4 wallNow request s rules).id = request.id)
        ∧ (rules.filter (fun r => !(ip4 (ruleIp r))) = [] →
            is_soa_blocking request s 900 (create_blocking_response ip4 wallNow request s rules)))
    ∧ (q.qtype ≠ .A → q.qtype ≠ .AAAA →
        ((s.blocking_mode = .DEFAULT ∨ s.blocking_mode = .UNSPECIFIED_ADDRESS
            ∨ s.blocking_mode = .CUSTOM_ADDRESS) →
          is_soa_blocking request s 900 (create_blocking_response ip4 wallNow request s rules))
        ∧ (s.blocking_mode = .REFUSED →
            (create_blocking_response ip4 wallNow request s rules).rcode = .REFUSED
            ∧ (create_blocking_response ip4 wallNow request s rules).answer = []
            ∧ (create_blocking_response ip4 wallNow request s rules).authority = [])
        ∧ (s.blocking_mode = .NXDOMAIN →
            (create_blocking_response ip4 wallNow request s rules).rcode = .NXDOMAIN
            ∧ ∃ soa, (create_blocking_response ip4 wallNow request s rules).authority = [soa]
              ∧ soa.rtype = .SOA ∧ soaRetryOf soa = some 900)) := by
  have hqt : qtypeOf request = q.qtype := by simp [qtypeOf, hq]
  have hO : ownerOf request = q.qname := by simp [ownerOf, hq]
  obtain ⟨rtl, rfl⟩ : ∃ tl, rules = r0 :: tl := by
    cases rules with
    | nil => cases hhead
    | cons a tl =>
      refine ⟨tl, ?_⟩
      have ha : a = r0 := by simpa using hhead
      rw [ha]
  refine ⟨?_, ?_, ?_⟩
  · -- A query
    intro hA
    have hbr : create_blocking_response ip4 wallNow request s (r0 :: rtl)
        = create_response_with_ips ip4 wallNow request s (r0 :: rtl) := by
      unfold create_blocking_response
      dsimp only [List.head?]
      rw [if_neg (by simp [hqt, hA]), if_neg hip, if_neg (by simp [hblk])]
    have hwi : create_response_with_ips ip4 wallNow request s (r0 :: rtl)
        = (if ((r0 :: rtl).filter (fun r => ip4 (ruleIp r))).length > 0
           then create_arecord_response request s ((r0 :: rtl).filter (fun r => ip4 (ruleIp r)))
           else create_soa_response wallNow request s SOA_RETRY_DEFAULT) := by
      unfold create_response_with_ips
      rw [hqt, hA]
    constructor
    · intro hne
      have hlen : ((r0 :: rtl).filter (fun r => ip4 (ruleIp r))).length > 0 :=
        List.length_pos.mpr hne
      rw [hbr, hwi, if_pos hlen]
      refine ⟨?_, rfl, rfl⟩
      simp [create_arecord_response, create_response_by_request, Pkt.empty, hO]
    · intro hnil
      rw [hbr, hwi, if_neg (by simp [hnil])]
      exact soa_response_shape wallNow request s SOA_RETRY_DEFAULT
  · -- AAAA query
    intro hA
    have hbr : create_blocking_response ip4 wallNow request s (r0 :: rtl)
        = create_response_with_ips ip4 wallNow request s (r0 :: rtl) := by
      unfold create_blocking_response
      dsimp only [List.head?]
      rw [if_neg (by simp [hqt, hA]), if_neg hip, if_neg (by simp [hblk])]
    have hwi : create_response_with_ips ip4 wallNow request s (r0 :: rtl)
        = (if ((r0 :: rtl).filter (fun r => !(ip4 (ruleIp r)))).length > 0
           then create_aaaarecord_response request s ((r0 :: rtl).filter (fun r => !(ip4 (ruleIp r))))
           else create_soa_response wallNow request s SOA_RETRY_DEFAULT) := by
      unfold create_response_with_ips
      rw [hqt, hA]
    constructor
    · intro hne
      have hlen : ((r0 :: rtl).filter (fun r => !(ip4 (ruleIp r)))).length > 0 :=
        List.length_pos.mpr hne
      rw [hbr, hwi, if_pos hlen]
      refine ⟨?_, rfl, rfl⟩
      simp [create_aaaarecord_response, create_response_by_request, Pkt.empty, hO]
    · intro hnil
      rw [hbr, hwi, if_neg (by simp [hnil])]
      exact soa_response_shape wallNow request s SOA_RETRY_DEFAULT
  · -- other query types
    intro hA hAAAA
    have hbr : create_blocking_response ip4 wallNow request s (r0 :: rtl)
        = (match s.blocking_mode with
           | .DEFAULT =>
               if r0.ip = none then create_refused_response request s
               else create_soa_response wallNow request s SOA_RETRY_DEFAULT
           | .REFUSED => create_refused_response request s
           | .NXDOMAIN => create_nxdomain_response wallNow request s
           | .UNSPECIFIED_ADDRESS => create_soa_response wallNow request s SOA_RETRY_DEFAULT
           | .CUSTOM_ADDRESS => create_soa_response wallNow request s SOA_RETRY_DEFAULT) := by
      unfold create_blocking_response
      dsimp only [List.head?]
      rw [if_pos (by rw [hqt]; exact ⟨hA, hAAAA⟩)]
    refine ⟨?_, ?_, ?_⟩
    · intro hm
      rw [hbr]
      rcases hm with hm | hm | hm <;> rw [hm]
      · rw [if_neg hip]
        exact soa_response_shape wallNow request s SOA_RETRY_DEFAULT
      · exact soa_response_shape wallNow request s SOA_RETRY_DEFAULT
      · exact soa_response_shape wallNow request s SOA_RETRY_DEFAULT
    · intro hm
      rw [hbr, hm]
      exact ⟨rfl, rfl, rfl⟩
    · intro hm
      rw [hbr, hm]
      exact ⟨rfl, create_soa wallNow request s 900, rfl, rfl, rfl⟩

/-- C4 witness: the two-IPv4-rule A query through the amended theorem: one
A answer record whose rdata lists 10.0.0.1 then 10.0.0.2 in rule order. -/
theorem c4_witness :
    (create_blocking_response c4Ip4 1000 c4Req exSettings [c4Rule1, c4Rule2]).answer
        = [⟨"cdn.example.", exSettings.blocked_response_ttl_secs, .A, 1,
            ([c4Rule1, c4Rule2].filter (fun r => c4Ip4 (ruleIp r))).map
              (fun r => Rdf.a4 (ruleIp r))⟩]
      ∧ (create_blocking_response c4Ip4 1000 c4Req exSettings [c4Rule1, c4Rule2]).rcode = .NOERROR
      ∧ (create_blocking_response c4Ip4 1000 c4Req exSettings [c4Rule1, c4Rule2]).id = c4Req.id := by
  exact ((c4_hosts_rules_blocking c4Ip4 1000 c4Req exSettings [c4Rule1, c4Rule2] c4Rule1
    ⟨"cdn.example.", .A, 1⟩ rfl rfl (by decide) (by decide)).1 rfl).1 (by decide)

/-! ### Dispatcher helper lemmas -/

/-- Unfolding equation: head succeeds at once. -/
theorem tryUpstreams_cons_ok (env : Env) (u : UpstreamInfo) (rest : List UpstreamInfo)
    (err : String) (cur : Option UpstreamInfo) (p : Pkt)
    (h : env.exchange u.uid 0 = .ok p) :
    tryUpstreams env (u :: rest) err cur = ⟨some (p, u), err, some u, [(u, 0)]⟩ := by
  conv_lhs => unfold tryUpstreams
  rw [h]

/-- Unfolding equation: head fails with the timeout error and is skipped. -/
theorem tryUpstreams_cons_timeout (env : Env) (u : UpstreamInfo) (rest : List UpstreamInfo)
    (err : String) (cur : Option UpstreamInfo) (e : String)
    (h : env.exchange u.uid 0 = .error e) (ht : e = TIMEOUT_STR) :
    tryUpstreams env (u :: rest) err cur
      = ⟨(tryUpstreams env rest err (some u)).success,
         (tryUpstreams env rest err (some u)).errStr,
         (tryUpstreams env rest err (some u)).last,
         (u, 0) :: (tryUpstreams env rest err (some u)).trace⟩ := by
  conv_lhs => unfold tryUpstreams
  rw [h]
  dsimp only
  rw [if_pos ht]

/-- Unfolding equation: head fails with a non-timeout error and the retry
succeeds. -/
theorem tryUpstreams_cons_retry_ok (env : Env) (u : UpstreamInfo) (rest : List UpstreamInfo)
    (err : String) (cur : Option UpstreamInfo) (e : String) (p : Pkt)
    (h : env.exchange u.uid 0 = .error e) (ht : e ≠ TIMEOUT_STR)
    (h2 : env.exchange u.uid 1 = .ok p) :
    tryUpstreams env (u :: rest) err cur = ⟨some (p, u), err, some u, [(u, 0), (u, 1)]⟩ := by
  conv_lhs => unfold tryUpstreams
  rw [h]
  dsimp only
  rw [if_neg ht, h2]

/-- Unfolding equation: head fails with a non-timeout error and the retry
fails too; the combined error message is carried into the tail. -/
theorem tryUpstreams_cons_retry_err (env : Env) (u : UpstreamInfo) (rest : List UpstreamInfo)
    (err : String) (cur : Option UpstreamInfo) (e e2 : String)
    (h : env.exchange u.uid 0 = .error e) (ht : e ≠ TIMEOUT_STR)
    (h2 : env.exchange u.uid 1 = .error e2) :
    tryUpstreams env (u :: rest) err cur
      = ⟨(tryUpstreams env rest (combinedErr u.address e e2) (some u)).success,
         (tryUpstreams env rest (combinedErr u.address e e2) (some u)).errStr,
         (tryUpstreams env rest (combinedErr u.address e e2) (some u)).last,
         (u, 0) :: (u, 1) :: (tryUpstreams env rest (combinedErr u.address e e2) (some u)).trace⟩ := by
  conv_lhs => unfold tryUpstreams
  rw [h]
  dsimp only
  rw [if_neg ht, h2]

/-- Every upstream recorded in the group trace belongs to the group. -/
theorem tryUpstreams_trace_mem (env : Env) (l : List UpstreamInfo) :
    ∀ (err : String) (cur : Option UpstreamInfo) (x : UpstreamInfo × Nat),
      x ∈ (tryUpstreams env l err cur).trace → x.1 ∈ l := by
  induction l with
  | nil =>
    intro err cur x hx
    simp [tryUpstreams] at hx
  | cons v rest ih =>
    intro err cur x hx
    cases hex : env.exchange v.uid 0 with
    | ok p =>
      rw [tryUpstreams_cons_ok env v rest err cur p hex] at hx
      simp at hx
      subst hx
      exact List.mem_cons_self v rest
    | error e =>
      by_cases ht : e = TIMEOUT_STR
      · rw [tryUpstreams_cons_timeout env v rest err cur e hex ht] at hx
        dsimp only at hx
        rcases List.mem_cons.mp hx with h | h
        · subst h
          exact List.mem_cons_self v rest
        · exact List.mem_cons_of_mem v (ih _ _ _ h)
      · cases hex2 : env.exchange v.uid 1 with
        | ok p2 =>
          rw [tryUpstreams_cons_retry_ok env v rest err cur e p2 hex ht hex2] at hx
          simp at hx
          rcases hx with h | h <;> subst h <;> exact List.mem_cons_self v rest
        | error e2 =>
          rw [tryUpstreams_cons_retry_err env v rest err cur e e2 hex ht hex2] at hx
          dsimp only at hx
          rcases List.mem_cons.mp hx with h | h
          · subst h
            exact List.mem_cons_self v rest
          · rcases List.mem_cons.mp h with h2 | h2
            · subst h2
              exact List.mem_cons_self v rest
            · exact List.mem_cons_of_mem v (ih _ _ _ h2)

/-- If the whole group failed, every upstream of the group was attempted
(its first exchange is in the trace) and failed. -/
theorem tryUpstreams_none_all_fail (env : Env) (l : List UpstreamInfo) :
    ∀ (err : String) (cur : Option UpstreamInfo),
      (tryUpstreams env l err cur).success = none →
      ∀ u ∈ l, (u, 0) ∈ (tryUpstreams env l err cur).trace ∧ upstream_fails env u := by
  induction l with
  | nil =>
    intro err cur _ u hu
    cases hu
  | cons v rest ih =>
    intro err cur hnone u hu
    cases hex : env.exchange v.uid 0 with
    | ok p =>
      rw [tryUpstreams_cons_ok env v rest err cur p hex] at hnone
      cases hnone
    | error e =>
      by_cases ht : e = TIMEOUT_STR
      · rw [tryUpstreams_cons_timeout env v rest err cur e hex ht] at hnone ⊢
        dsimp only at hnone ⊢
        rcases List.mem_cons.mp hu with h | h
        · subst h
          exact ⟨List.mem_cons_self _ _, e, hex, fun hne => absurd ht hne⟩
        · obtain ⟨h1, h2⟩ := ih _ _ hnone u h
          exact ⟨List.mem_cons_of_mem _ h1, h2⟩
      · cases hex2 : env.exchange v.uid 1 with
        | ok p2 =>
          rw [tryUpstreams_cons_retry_ok env v rest err cur e p2 hex ht hex2] at hnone
          cases hnone
        | error e2 =>
          rw [tryUpstreams_cons_retry_err env v rest err cur e e2 hex ht hex2] at hnone ⊢
          dsimp only at hnone ⊢
          rcases List.mem_cons.mp hu with h | h
          · subst h
            exact ⟨List.mem_cons_self _ _, e, hex, fun _ => ⟨e2, hex2⟩⟩
          · obtain ⟨h1, h2⟩ := ih _ _ hnone u h
            exact ⟨List.mem_cons_of_mem _ (List.mem_cons_of_mem _ h1), h2⟩

/-- The trace of an RTT-sorted group is non-decreasing in RTT. -/
theorem tryUpstreams_trace_sorted (env : Env) (l : List UpstreamInfo) :
    l.Sorted rttLE →
    ∀ (err : String) (cur : Option UpstreamInfo),
      ((tryUpstreams env l err cur).trace).Sorted (fun a b => a.1.rtt ≤ b.1.rtt) := by
  induction l with
  | nil =>
    intro _ err cur
    simp [tryUpstreams]
  | cons v rest ih =>
    intro hl err cur
    rw [List.sorted_cons] at hl
    obtain ⟨hbound, hrest⟩ := hl
    have htail : ∀ (err2 : String) (cur2 : Option UpstreamInfo) (y : UpstreamInfo × Nat),
        y ∈ (tryUpstreams env rest err2 cur2).trace → v.rtt ≤ y.1.rtt := by
      intro err2 cur2 y hy
      exact hbound y.1 (tryUpstreams_trace_mem env rest err2 cur2 y hy)
    cases hex : env.exchange v.uid 0 with
    | ok p =>
      rw [tryUpstreams_cons_ok env v rest err cur p hex]
      simp
    | error e =>
      by_cases ht : e = TIMEOUT_STR
      · rw [tryUpstreams_cons_timeout env v rest err cur e hex ht]
        dsimp only
        rw [List.sorted_cons]
        exact ⟨fun y hy => htail _ _ y hy, ih hrest _ _⟩
      · cases hex2 : env.exchange v.uid 1 with
        | ok p2 =>
          rw [tryUpstreams_cons_retry_ok env v rest err cur e p2 hex ht hex2]
          simp [List.sorted_cons]
        | error e2 =>
          rw [tryUpstreams_cons_retry_err env v rest err cur e e2 hex ht hex2]
          dsimp only
          rw [List.sorted_cons]
          refine ⟨?_, ?_⟩
          · intro y hy
            rcases List.mem_cons.mp hy with h | h
            · rw [h]
            · exact htail _ _ y h
          · rw [List.sorted_cons]
            exact ⟨fun y hy => htail _ _ y hy, ih hrest _ _⟩

/-- A retry only appears in the trace when the first attempt failed with a
non-timeout error. -/
theorem tryUpstreams_retry_first_error (env : Env) (l : List UpstreamInfo) :
    ∀ (err : String) (cur : Option UpstreamInfo) (u : UpstreamInfo),
      (u, 1) ∈ (tryUpstreams env l err cur).trace →
      ∃ e, env.exchange u.uid 0 = .error e ∧ e ≠ TIMEOUT_STR := by
  induction l with
  | nil =>
    intro err cur u hu
    simp [tryUpstreams] at hu
  | cons v rest ih =>
    intro err cur u hu
    cases hex : env.exchange v.uid 0 with
    | ok p =>
      rw [tryUpstreams_cons_ok env v rest err cur p hex] at hu
      simp only [List.mem_singleton] at hu
      exact absurd (congrArg Prod.snd hu) (by simp)
    | error e =>
      by_cases ht : e = TIMEOUT_STR
      · rw [tryUpstreams_cons_timeout env v rest err cur e hex ht] at hu
        dsimp only at hu
        rcases List.mem_cons.mp hu with h | h
        · exact absurd (congrArg Prod.snd h) (by simp)
        · exact ih _ _ u h
      · cases hex2 : env.exchange v.uid 1 with
        | ok p2 =>
          rw [tryUpstreams_cons_retry_ok env v rest err cur e p2 hex ht hex2] at hu
          rcases List.mem_cons.mp hu with h | h
          · exact absurd (congrArg Prod.snd h) (by simp)
          · rcases List.mem_cons.mp h with h2 | h2
            · have h1 : u = v := congrArg Prod.fst h2
              subst h1
              exact ⟨e, hex, ht⟩
            · cases h2
        | error e2 =>
          rw [tryUpstreams_cons_retry_err env v rest err cur e e2 hex ht hex2] at hu
          dsimp only at hu
          rcases List.mem_cons.mp hu with h | h
          · exact absurd (congrArg Prod.snd h) (by simp)
          · rcases List.mem_cons.mp h with h2 | h2
            · have h1 : u = v := congrArg Prod.fst h2
              subst h1
              exact ⟨e, hex, ht⟩
            · exact ih _ _ u h2

/-- If a retry appears in the trace and that retry succeeds, the group
returns exactly the retry's packet with that upstream. -/
theorem tryUpstreams_retry_ok (env : Env) (l : List UpstreamInfo) :
    ∀ (err : String) (cur : Option UpstreamInfo) (u : UpstreamInfo) (p : Pkt),
      (u, 1) ∈ (tryUpstreams env l err cur).trace →
      env.exchange u.uid 1 = .ok p →
      (tryUpstreams env l err cur).success = some (p, u) := by
  induction l with
  | nil =>
    intro err cur u p hu _
    simp [tryUpstreams] at hu
  | cons v rest ih =>
    intro err cur u p hu hok
    cases hex : env.exchange v.uid 0 with
    | ok p0 =>
      rw [tryUpstreams_cons_ok env v rest err cur p0 hex] at hu
      simp only [List.mem_singleton] at hu
      exact absurd (congrArg Prod.snd hu) (by simp)
    | error e =>
      by_cases ht : e = TIMEOUT_STR
      · rw [tryUpstreams_cons_timeout env v rest err cur e hex ht] at hu ⊢
        dsimp only at hu ⊢
        rcases List.mem_cons.mp hu with h | h
        · exact absurd (congrArg Prod.snd h) (by simp)
        · exact ih _ _ u p h hok
      · cases hex2 : env.exchange v.uid 1 with
        | ok p2 =>
          rw [tryUpstreams_cons_retry_ok env v rest err cur e p2 hex ht hex2] at hu ⊢
          rcases List.mem_cons.mp hu with h | h
          · exact absurd (congrArg Prod.snd h) (by simp)
          · rcases List.mem_cons.mp h with h2 | h2
            · have h1 : u = v := congrArg Prod.fst h2
              subst h1
              rw [hex2] at hok
              cases hok
              rfl
            · cases h2
        | error e2 =>
          rw [tryUpstreams_cons_retry_err env v rest err cur e e2 hex ht hex2] at hu ⊢
          dsimp only at hu ⊢
          rcases List.mem_cons.mp hu with h | h
          · exact absurd (congrArg Prod.snd h) (by simp)
          · rcases List.mem_cons.mp h with h2 | h2
            · have h1 : u = v := congrArg Prod.fst h2
              subst h1
              rw [hex2] at hok
              cases hok
            · exact ih _ _ u p h2 hok

/-- A non-empty group always records at least one exchange. -/
theorem tryUpstreams_trace_ne_nil (env : Env) (v : UpstreamInfo) (rest : List UpstreamInfo)
    (err : String) (cur : Option UpstreamInfo) :
    (tryUpstreams env (v :: rest) err cur).trace ≠ [] := by
  cases hex : env.exchange v.uid 0 with
  | ok p =>
    rw [tryUpstreams_cons_ok env v rest err cur p hex]
    simp
  | error e =>
    by_cases ht : e = TIMEOUT_STR
    · rw [tryUpstreams_cons_timeout env v rest err cur e hex ht]
      simp
    · cases hex2 : env.exchange v.uid 1 with
      | ok p2 =>
        rw [tryUpstreams_cons_retry_ok env v rest err cur e p2 hex ht hex2]
        simp
      | error e2 =>
        rw [tryUpstreams_cons_retry_err env v rest err cur e e2 hex ht hex2]
        simp

/-- No attempt is recorded for an upstream whose uid is not in the group. -/
theorem trace_countP_zero (env : Env) (l : List UpstreamInfo) (err : String)
    (cur : Option UpstreamInfo) (u : UpstreamInfo)
    (hu : u.uid ∉ l.map UpstreamInfo.uid) :
    ((tryUpstreams env l err cur).trace).countP (fun x => x.1.uid == u.uid) = 0 := by
  rw [List.countP_eq_zero]
  intro x hx
  have hmem : x.1 ∈ l := tryUpstreams_trace_mem env l err cur x hx
  simp only [beq_iff_eq]
  intro heq
  exact hu (heq ▸ List.mem_map_of_mem UpstreamInfo.uid hmem)

/-- In a group of pairwise-distinct uids, an attempted upstream whose first
exchange fails with a non-timeout error is exchanged exactly twice: the
first attempt and the single retry. -/
theorem tryUpstreams_count_two (env : Env) (l : List UpstreamInfo) :
    (l.map UpstreamInfo.uid).Nodup →
    ∀ (err : String) (cur : Option UpstreamInfo) (u : UpstreamInfo) (e : String),
      (u, 0) ∈ (tryUpstreams env l err cur).trace →
      env.exchange u.uid 0 = .error e → e ≠ TIMEOUT_STR →
      ((tryUpstreams env l err cur).trace).countP (fun x => x.1.uid == u.uid) = 2 := by
  induction l with
  | nil =>
    intro _ err cur u e hu _ _
    simp [tryUpstreams] at hu
  | cons v rest ih =>
    intro hnd err cur u e hu hex0 ht0
    rw [List.map_cons, List.nodup_cons] at hnd
    obtain ⟨hvnotin, hndrest⟩ := hnd
    cases hex : env.exchange v.uid 0 with
    | ok p =>
      rw [tryUpstreams_cons_ok env v rest err cur p hex] at hu
      simp only [List.mem_singleton] at hu
      have h1 : u = v := congrArg Prod.fst hu
      subst h1
      rw [hex] at hex0
      cases hex0
    | error e1 =>
      by_cases ht : e1 = TIMEOUT_STR
      · rw [tryUpstreams_cons_timeout env v rest err cur e1 hex ht] at hu ⊢
        dsimp only at hu ⊢
        rcases List.mem_cons.mp hu with h | h
        · have h1 : u = v := congrArg Prod.fst h
          subst h1
          rw [hex] at hex0
          cases hex0
          exact absurd ht ht0
        · have hvu : ¬ ((v, (0 : Nat)).1.uid == u.uid) = true := by
            simp only [beq_iff_eq]
            intro hvu
            have humem : u.uid ∈ rest.map UpstreamInfo.uid :=
              List.mem_map_of_mem UpstreamInfo.uid
                (tryUpstreams_trace_mem env rest err (some v) (u, 0) h)
            exact hvnotin (hvu ▸ humem)
          rw [List.countP_cons_of_neg (fun x : UpstreamInfo × Nat => x.1.uid == u.uid) _ hvu]
          exact ih hndrest _ _ u e h hex0 ht0
      · cases hex2 : env.exchange v.uid 1 with
        | ok p2 =>
          rw [tryUpstreams_cons_retry_ok env v rest err cur e1 p2 hex ht hex2] at hu ⊢
          rcases List.mem_cons.mp hu with h | h
          · have h1 : u = v := congrArg Prod.fst h
            subst h1
            simp [List.countP_cons]
          · rcases List.mem_cons.mp h with h2 | h2
            · exact absurd (congrArg Prod.snd h2) (by simp)
            · cases h2
        | error e2 =>
          rw [tryUpstreams_cons_retry_err env v rest err cur e1 e2 hex ht hex2] at hu ⊢
          dsimp only at hu ⊢
          have hcase : u = v ∨ (u, (0 : Nat)) ∈ (tryUpstreams env rest
              (combinedErr v.address e1 e2) (some v)).trace := by
            rcases List.mem_cons.mp hu with h | h
            · exact Or.inl (congrArg Prod.fst h)
            · rcases List.mem_cons.mp h with h2 | h2
              · exact absurd (congrArg Prod.snd h2) (by simp)
              · exact Or.inr h2
          rcases hcase with h1 | h1
          · subst h1
            rw [List.countP_cons_of_pos (fun x : UpstreamInfo × Nat => x.1.uid == u.uid) _ (by simp), List.countP_cons_of_pos (fun x : UpstreamInfo × Nat => x.1.uid == u.uid) _ (by simp)]
            have hz : ((tryUpstreams env rest (combinedErr u.address e1 e2) (some u)).trace).countP
                (fun x => x.1.uid == u.uid) = 0 :=
              trace_countP_zero env rest _ (some u) u hvnotin
            omega
          · have hvu : ¬ (v.uid = u.uid) := by
              intro hvu
              have humem : u.uid ∈ rest.map UpstreamInfo.uid :=
                List.mem_map_of_mem UpstreamInfo.uid
                  (tryUpstreams_trace_mem env rest _ (some v) (u, 0) h1)
              exact hvnotin (hvu ▸ humem)
            rw [List.countP_cons_of_neg (fun x : UpstreamInfo × Nat => x.1.uid == u.uid) _ (by simp [hvu]), List.countP_cons_of_neg (fun x : UpstreamInfo × Nat => x.1.uid == u.uid) _ (by simp [hvu])]
            exact ih hndrest _ _ u e h1 hex0 ht0

/-- When the whole group fails and the last recorded exchange was a retry,
the accumulated error string is the combined message of that upstream's two
failures. -/
theorem tryUpstreams_last_retry_err (env : Env) (l : List UpstreamInfo) :
    ∀ (err : String) (cur : Option UpstreamInfo) (u : UpstreamInfo),
      (tryUpstreams env l err cur).success = none →
      ((tryUpstreams env l err cur).trace).getLast? = some (u, 1) →
      ∃ e1 e2, env.exchange u.uid 0 = .error e1 ∧ env.exchange u.uid 1 = .error e2
        ∧ (tryUpstreams env l err cur).errStr = combinedErr u.address e1 e2 := by
  induction l with
  | nil =>
    intro err cur u _ hlast
    simp [tryUpstreams] at hlast
  | cons v rest ih =>
    intro err cur u hnone hlast
    cases hex : env.exchange v.uid 0 with
    | ok p =>
      rw [tryUpstreams_cons_ok env v rest err cur p hex] at hnone
      cases hnone
    | error e1 =>
      by_cases ht : e1 = TIMEOUT_STR
      · rw [tryUpstreams_cons_timeout env v rest err cur e1 hex ht] at hnone hlast ⊢
        dsimp only at hnone hlast ⊢
        cases htr : (tryUpstreams env rest err (some v)).trace with
        | nil =>
          rw [htr, List.getLast?_singleton, Option.some.injEq] at hlast
          exact absurd (congrArg Prod.snd hlast) (by simp)
        | cons y ys =>
          rw [htr, List.getLast?_cons_cons] at hlast
          refine ih _ _ u hnone ?_
          rw [htr]
          exact hlast
      · cases hex2 : env.exchange v.uid 1 with
        | ok p2 =>
          rw [tryUpstreams_cons_retry_ok env v rest err cur e1 p2 hex ht hex2] at hnone
          cases hnone
        | error e2 =>
          rw [tryUpstreams_cons_retry_err env v rest err cur e1 e2 hex ht hex2] at hnone hlast ⊢
          dsimp only at hnone hlast ⊢
          cases htr : (tryUpstreams env rest (combinedErr v.address e1 e2) (some v)).trace with
          | nil =>
            rw [htr, List.getLast?_cons_cons, List.getLast?_singleton, Option.some.injEq] at hlast
            have h1 : u = v := (congrArg Prod.fst hlast).symm
            subst h1
            have hrestnil : rest = [] := by
              cases hrest : rest with
              | nil => rfl
              | cons w ws =>
                rw [hrest] at htr
                exact absurd htr (tryUpstreams_trace_ne_nil env w ws _ (some u))
            subst hrestnil
            refine ⟨e1, e2, hex, hex2, ?_⟩
            simp [tryUpstreams]
          | cons y ys =>
            rw [htr, List.getLast?_cons_cons, List.getLast?_cons_cons] at hlast
            refine ih _ _ u hnone ?_
            rw [htr]
            exact hlast

/-! ### C7 -/

/-- C7: the dispatch trace splits into a block of primary attempts followed
by a block of fallback attempts; a fallback is attempted only when every
primary has been attempted (its first exchange is in the primary block) and
failed (first attempt errored; if not by timeout, the retry errored too);
within each block the attempts are in non-decreasing order of the RTTs
recorded at the snapshot. -/
theorem c7_dispatch_order (env : Env) (prims fbs : List UpstreamInfo) :
    ∃ tp tf, (do_upstream_exchange env prims fbs).trace = tp ++ tf
      ∧ (∀ x ∈ tp, x.1 ∈ prims)
      ∧ (∀ x ∈ tf, x.1 ∈ fbs)
      ∧ (tf ≠ [] → ∀ p ∈ prims, (p, 0) ∈ tp ∧ upstream_fails env p)
      ∧ tp.Sorted (fun a b => a.1.rtt ≤ b.1.rtt)
      ∧ tf.Sorted (fun a b => a.1.rtt ≤ b.1.rtt) := by
  have hmemP : ∀ x ∈ (tryUpstreams env (sortByRtt prims) "" none).trace, x.1 ∈ prims := by
    intro x hx
    exact (List.perm_insertionSort rttLE prims).subset
      (tryUpstreams_trace_mem env (sortByRtt prims) _ _ x hx)
  have hsortP : ((tryUpstreams env (sortByRtt prims) "" none).trace).Sorted
      (fun a b => a.1.rtt ≤ b.1.rtt) :=
    tryUpstreams_trace_sorted env (sortByRtt prims) (List.sorted_insertionSort rttLE prims) _ _
  cases hs1 : (tryUpstreams env (sortByRtt prims) "" none).success with
  | some pu =>
    refine ⟨(tryUpstreams env (sortByRtt prims) "" none).trace, [],
      by simp [do_upstream_exchange, hs1], hmemP, by simp, by simp, hsortP, by simp⟩
  | none =>
    have hmemF : ∀ x ∈ (tryUpstreams env (sortByRtt fbs)
        (tryUpstreams env (sortByRtt prims) "" none).errStr
        (tryUpstreams env (sortByRtt prims) "" none).last).trace, x.1 ∈ fbs := by
      intro x hx
      exact (List.perm_insertionSort rttLE fbs).subset
        (tryUpstreams_trace_mem env (sortByRtt fbs) _ _ x hx)
    have hsortF : ((tryUpstreams env (sortByRtt fbs)
        (tryUpstreams env (sortByRtt prims) "" none).errStr
        (tryUpstreams env (sortByRtt prims) "" none).last).trace).Sorted
        (fun a b => a.1.rtt ≤ b.1.rtt) :=
      tryUpstreams_trace_sorted env (sortByRtt fbs) (List.sorted_insertionSort rttLE fbs) _ _
    have hfail : ∀ p ∈ prims, (p, 0) ∈ (tryUpstreams env (sortByRtt prims) "" none).trace
        ∧ upstream_fails env p := by
      intro p hp
      exact tryUpstreams_none_all_fail env (sortByRtt prims) _ _ hs1 p
        ((List.perm_insertionSort rttLE prims).symm.subset hp)
    cases hs2 : (tryUpstreams env (sortByRtt fbs)
        (tryUpstreams env (sortByRtt prims) "" none).errStr
        (tryUpstreams env (sortByRtt prims) "" none).last).success with
    | some pu =>
      exact ⟨(tryUpstreams env (sortByRtt prims) "" none).trace,
        (tryUpstreams env (sortByRtt fbs)
          (tryUpstreams env (sortByRtt prims) "" none).errStr
          (tryUpstreams env (sortByRtt prims) "" none).last).trace,
        by simp [do_upstream_exchange, hs1, hs2], hmemP, hmemF, fun _ => hfail, hsortP, hsortF⟩
    | none =>
      exact ⟨(tryUpstreams env (sortByRtt prims) "" none).trace,
        (tryUpstreams env (sortByRtt fbs)
          (tryUpstreams env (sortByRtt prims) "" none).errStr
          (tryUpstreams env (sortByRtt prims) "" none).last).trace,
        by simp [do_upstream_exchange, hs1, hs2], hmemP, hmemF, fun _ => hfail, hsortP, hsortF⟩

/-! ### C8 -/

/-- C8: in `do_upstream_exchange`, (i) an upstream whose exchange fails
with the timeout error is never retried; (ii) an attempted upstream whose
exchange fails with a non-timeout error is exchanged exactly twice (the
attempt and one retry); (iii) if the retry succeeds, its packet is returned
with that upstream and no error; (iv) if the dispatch fails and the last
exchange was a retry, the returned error is the combined message recording
that upstream's two failures. -/
theorem c8_retry_policy (env : Env) (prims fbs : List UpstreamInfo)
    (hnd : ((prims ++ fbs).map UpstreamInfo.uid).Nodup) :
    (∀ u e, env.exchange u.uid 0 = .error e → e = TIMEOUT_STR →
        (u, 1) ∉ (do_upstream_exchange env prims fbs).trace)
    ∧ (∀ u e, (u, 0) ∈ (do_upstream_exchange env prims fbs).trace →
        env.exchange u.uid 0 = .error e → e ≠ TIMEOUT_STR →
        ((do_upstream_exchange env prims fbs).trace).countP
          (fun x => x.1.uid == u.uid) = 2)
    ∧ (∀ u p, (u, 1) ∈ (do_upstream_exchange env prims fbs).trace →
        env.exchange u.uid 1 = .ok p →
        (do_upstream_exchange env prims fbs).response = some p
          ∧ (do_upstream_exchange env prims fbs).error = none
          ∧ (do_upstream_exchange env prims fbs).upstream = some u)
    ∧ (∀ u, ((do_upstream_exchange env prims fbs).trace).getLast? = some (u, 1) →
        (do_upstream_exchange env prims fbs).response = none →
        ∃ e1 e2, env.exchange u.uid 0 = .error e1 ∧ env.exchange u.uid 1 = .error e2
          ∧ (do_upstream_exchange env prims fbs).error
              = some (combinedErr u.address e1 e2)) := by
  have hndP : ((sortByRtt prims).map UpstreamInfo.uid).Nodup := by
    unfold sortByRtt
    rw [((List.perm_insertionSort rttLE prims).map UpstreamInfo.uid).nodup_iff]
    exact ((List.nodup_append.mp (by simpa using hnd)).1)
  have hndF : ((sortByRtt fbs).map UpstreamInfo.uid).Nodup := by
    unfold sortByRtt
    rw [((List.perm_insertionSort rttLE fbs).map UpstreamInfo.uid).nodup_iff]
    exact ((List.nodup_append.mp (by simpa using hnd)).2.1)
  have hdisj : ∀ a, a ∈ prims.map UpstreamInfo.uid → a ∉ fbs.map UpstreamInfo.uid := by
    intro a ha hb
    exact (List.disjoint_of_nodup_append (by simpa using hnd)) ha hb
  have hmemP : ∀ x ∈ (tryUpstreams env (sortByRtt prims) "" none).trace, x.1 ∈ prims :=
    fun x hx => (List.perm_insertionSort rttLE prims).subset
      (tryUpstreams_trace_mem env (sortByRtt prims) _ _ x hx)
  refine ⟨?_, ?_, ?_, ?_⟩
  · -- (i) timeouts are not retried
    intro u e hex htime hmem
    have hfirst : ∃ e2, env.exchange u.uid 0 = .error e2 ∧ e2 ≠ TIMEOUT_STR := by
      cases hs1 : (tryUpstreams env (sortByRtt prims) "" none).success with
      | some pu =>
        simp only [do_upstream_exchange, hs1] at hmem
        exact tryUpstreams_retry_first_error env _ _ _ u hmem
      | none =>
        cases hs2 : (tryUpstreams env (sortByRtt fbs)
            (tryUpstreams env (sortByRtt prims) "" none).errStr
            (tryUpstreams env (sortByRtt prims) "" none).last).success with
        | some pu =>
          simp only [do_upstream_exchange, hs1, hs2] at hmem
          rcases List.mem_append.mp hmem with h | h
          · exact tryUpstreams_retry_first_error env _ _ _ u h
          · exact tryUpstreams_retry_first_error env _ _ _ u h
        | none =>
          simp only [do_upstream_exchange, hs1, hs2] at hmem
          rcases List.mem_append.mp hmem with h | h
          · exact tryUpstreams_retry_first_error env _ _ _ u h
          · exact tryUpstreams_retry_first_error env _ _ _ u h
    obtain ⟨e2, he2, hne2⟩ := hfirst
    rw [hex] at he2
    injection he2 with hee
    exact hne2 (hee ▸ htime)
  · -- (ii) non-timeout failures are retried exactly once
    intro u e hmem hex hne
    cases hs1 : (tryUpstreams env (sortByRtt prims) "" none).success with
    | some pu =>
      simp only [do_upstream_exchange, hs1] at hmem ⊢
      exact tryUpstreams_count_two env _ hndP _ _ u e hmem hex hne
    | none =>
      cases hs2 : (tryUpstreams env (sortByRtt fbs)
          (tryUpstreams env (sortByRtt prims) "" none).errStr
          (tryUpstreams env (sortByRtt prims) "" none).last).success with
      | some pu =>
        simp only [do_upstream_exchange, hs1, hs2] at hmem ⊢
        rw [List.countP_append]
        have hmemF : ∀ x ∈ (tryUpstreams env (sortByRtt fbs)
            (tryUpstreams env (sortByRtt prims) "" none).errStr
            (tryUpstreams env (sortByRtt prims) "" none).last).trace, x.1 ∈ fbs :=
          fun x hx => (List.perm_insertionSort rttLE fbs).subset
            (tryUpstreams_trace_mem env (sortByRtt fbs) _ _ x hx)
        rcases List.mem_append.mp hmem with h | h
        · have h2 := tryUpstreams_count_two env _ hndP _ _ u e h hex hne
          have h0 : ((tryUpstreams env (sortByRtt fbs)
              (tryUpstreams env (sortByRtt prims) "" none).errStr
              (tryUpstreams env (sortByRtt prims) "" none).last).trace).countP
              (fun x => x.1.uid == u.uid) = 0 := by
            rw [List.countP_eq_zero]
            intro x hx
            simp only [beq_iff_eq]
            intro heq
            have hup : u.uid ∈ prims.map UpstreamInfo.uid :=
              List.mem_map_of_mem UpstreamInfo.uid (hmemP (u, 0) h)
            exact hdisj u.uid hup (heq ▸ List.mem_map_of_mem UpstreamInfo.uid (hmemF x hx))
          omega
        · have h2 := tryUpstreams_count_two env _ hndF _ _ u e h hex hne
          have h0 : ((tryUpstreams env (sortByRtt prims) "" none).trace).countP
              (fun x => x.1.uid == u.uid) = 0 := by
            rw [List.countP_eq_zero]
            intro x hx
            simp only [beq_iff_eq]
            intro heq
            have hup : u.uid ∈ fbs.map UpstreamInfo.uid :=
              List.mem_map_of_mem UpstreamInfo.uid (hmemF (u, 0) h)
            have hpp : u.uid ∈ prims.map UpstreamInfo.uid :=
              heq ▸ List.mem_map_of_mem UpstreamInfo.uid (hmemP x hx)
            exact hdisj u.uid hpp hup
          omega
      | none =>
        simp only [do_upstream_exchange, hs1, hs2] at hmem ⊢
        rw [List.countP_append]
        have hmemF : ∀ x ∈ (tryUpstreams env (sortByRtt fbs)
            (tryUpstreams env (sortByRtt prims) "" none).errStr
            (tryUpstreams env (sortByRtt prims) "" none).last).trace, x.1 ∈ fbs :=
          fun x hx => (List.perm_insertionSort rttLE fbs).subset
            (tryUpstreams_trace_mem env (sortByRtt fbs) _ _ x hx)
        rcases List.mem_append.mp hmem with h | h
        · have h2 := tryUpstreams_count_two env _ hndP _ _ u e h hex hne
          have h0 : ((tryUpstreams env (sortByRtt fbs)
              (tryUpstreams env (sortByRtt prims) "" none).errStr
              (tryUpstreams env (sortByRtt prims) "" none).last).trace).countP
              (fun x => x.1.uid == u.uid) = 0 := by
            rw [List.countP_eq_zero]
            intro x hx
            simp only [beq_iff_eq]
            intro heq
            have hup : u.uid ∈ prims.map UpstreamInfo.uid :=
              List.mem_map_of_mem UpstreamInfo.uid (hmemP (u, 0) h)
            exact hdisj u.uid hup (heq ▸ List.mem_map_of_mem UpstreamInfo.uid (hmemF x hx))
          omega
        · have h2 := tryUpstreams_count_two env _ hndF _ _ u e h hex hne
          have h0 : ((tryUpstreams env (sortByRtt prims) "" none).trace).countP
              (fun x => x.1.uid == u.uid) = 0 := by
            rw [List.countP_eq_zero]
            intro x hx
            simp only [beq_iff_eq]
            intro heq
            have hup : u.uid ∈ fbs.map UpstreamInfo.uid :=
              List.mem_map_of_mem UpstreamInfo.uid (hmemF (u, 0) h)
            have hpp : u.uid ∈ prims.map UpstreamInfo.uid :=
              heq ▸ List.mem_map_of_mem UpstreamInfo.uid (hmemP x hx)
            exact hdisj u.uid hpp hup
          omega
  · -- (iii) the retry's success is returned
    intro u p hmem hok
    cases hs1 : (tryUpstreams env (sortByRtt prims) "" none).success with
    | some pu =>
      simp only [do_upstream_exchange, hs1] at hmem ⊢
      have hres := tryUpstreams_retry_ok env _ _ _ u p hmem hok
      rw [hs1] at hres
      injection hres with hpu
      subst hpu
      exact ⟨rfl, trivial, rfl⟩
    | none =>
      cases hs2 : (tryUpstreams env (sortByRtt fbs)
          (tryUpstreams env (sortByRtt prims) "" none).errStr
          (tryUpstreams env (sortByRtt prims) "" none).last).success with
      | some pu =>
        simp only [do_upstream_exchange, hs1, hs2] at hmem ⊢
        rcases List.mem_append.mp hmem with h | h
        · have hres := tryUpstreams_retry_ok env _ _ _ u p h hok
          rw [hs1] at hres
          cases hres
        · have hres := tryUpstreams_retry_ok env _ _ _ u p h hok
          rw [hs2] at hres
          injection hres with hpu
          subst hpu
          exact ⟨rfl, trivial, rfl⟩
      | none =>
        simp only [do_upstream_exchange, hs1, hs2] at hmem ⊢
        rcases List.mem_append.mp hmem with h | h
        · have hres := tryUpstreams_retry_ok env _ _ _ u p h hok
          rw [hs1] at hres
          cases hres
        · have hres := tryUpstreams_retry_ok env _ _ _ u p h hok
          rw [hs2] at hres
          cases hres
  · -- (iv) the combined error of the last doubly-failed upstream is kept
    intro u hlast hresp
    cases hs1 : (tryUpstreams env (sortByRtt prims) "" none).success with
    | some pu =>
      simp only [do_upstream_exchange, hs1] at hresp
      cases hresp
    | none =>
      cases hs2 : (tryUpstreams env (sortByRtt fbs)
          (tryUpstreams env (sortByRtt prims) "" none).errStr
          (tryUpstreams env (sortByRtt prims) "" none).last).success with
      | some pu =>
        simp only [do_upstream_exchange, hs1, hs2] at hresp
        cases hresp
      | none =>
        simp only [do_upstream_exchange, hs1, hs2] at hlast ⊢
        cases htr2 : (tryUpstreams env (sortByRtt fbs)
            (tryUpstreams env (sortByRtt prims) "" none).errStr
            (tryUpstreams env (sortByRtt prims) "" none).last).trace with
        | nil =>
          rw [htr2, List.append_nil] at hlast
          obtain ⟨e1, e2, h1, h2, herr⟩ :=
            tryUpstreams_last_retry_err env (sortByRtt prims) _ _ u hs1 hlast
          have hfnil : sortByRtt fbs = [] := by
            cases hf : sortByRtt fbs with
            | nil => rfl
            | cons w ws => exact absurd (hf ▸ htr2) (tryUpstreams_trace_ne_nil env w ws _ _)
          refine ⟨e1, e2, h1, h2, ?_⟩
          rw [hfnil]
          simp [tryUpstreams, herr]
        | cons y ys =>
          have hne2 : (tryUpstreams env (sortByRtt fbs)
              (tryUpstreams env (sortByRtt prims) "" none).errStr
              (tryUpstreams env (sortByRtt prims) "" none).last).trace ≠ [] := by
            rw [htr2]
            simp
          rw [List.getLast?_append_of_ne_nil _ hne2] at hlast
          obtain ⟨e1, e2, h1, h2, herr⟩ :=
            tryUpstreams_last_retry_err env (sortByRtt fbs) _ _ u hs2 hlast
          exact ⟨e1, e2, h1, h2, by rw [herr]⟩

/-- C8 witness: in the concrete dispatch (primary with RTT 10 times out and
is not retried, primary with RTT 50 fails twice, fallback succeeds), the
doubly-failing upstream is exchanged exactly twice. -/
theorem c8_witness :
    ((do_upstream_exchange c8Env [c8uA, c8uB] [c8uF]).trace).countP
      (fun x => x.1.uid == c8uA.uid) = 2 := by
  exact (c8_retry_policy c8Env [c8uA, c8uB] [c8uF] (by decide)).2.1 c8uA "refused"
    (by decide) rfl (by decide)

/-! ### C9 -/

/-- C9: in DNS64 AAAA synthesis, (i) a failing auxiliary A exchange returns
nothing; (ii) on a successful exchange, if no AAAA record was synthesized
nothing is returned, and (iii) if at least one was synthesized, the returned
response carries the original request's id, RD from the request, RA and CD
from the A response, QR set, the question cloned from the request, and the
synthesized record list as its answer section. -/
theorem c9_dns64_synthesis (env : Env) (uid : Nat) (prefixes : List (List Nat))
    (request : Pkt) (q : Question) (response_a : Pkt)
    (hq : request.question.head? = some q)
    (hp : prefixes ≠ []) :
    (∀ e, env.dns64_exchange uid (make_a_request env.random_id request q) = .error e →
        try_dns64_aaaa_synthesis env uid prefixes request = none)
    ∧ (env.dns64_exchange uid (make_a_request env.random_id request q) = .ok response_a →
        ((synth_rrs env.synth prefixes response_a.answer).2 = 0 →
          try_dns64_aaaa_synthesis env uid prefixes request = none)
        ∧ (0 < (synth_rrs env.synth prefixes response_a.answer).2 →
          ∃ resp, try_dns64_aaaa_synthesis env uid prefixes request = some resp
            ∧ resp.id = request.id ∧ resp.rd = request.rd
            ∧ resp.ra = response_a.ra ∧ resp.cd = response_a.cd
            ∧ resp.qr = true ∧ resp.question = request.question
            ∧ resp.qdcount = request.qdcount
            ∧ resp.answer = (synth_rrs env.synth prefixes response_a.answer).1)) := by
  have hpe : prefixes.isEmpty = false := by
    cases prefixes with
    | nil => exact absurd rfl hp
    | cons a l => rfl
  constructor
  · intro e hex
    unfold try_dns64_aaaa_synthesis
    rw [hpe, hq]
    dsimp only
    rw [hex]
    rfl
  · intro hex
    constructor
    · intro hzero
      unfold try_dns64_aaaa_synthesis
      rw [hpe, hq]
      dsimp only
      rw [hex]
      dsimp only
      by_cases hlen : response_a.answer.length = 0
      · rw [if_pos hlen]
        rfl
      · rw [if_neg hlen, if_pos hzero]
        rfl
    · intro hpos
      have hlen : ¬ (response_a.answer.length = 0) := by
        intro hlen
        have : response_a.answer = [] := List.length_eq_zero.mp hlen
        rw [this] at hpos
        simp [synth_rrs] at hpos
      refine ⟨{ Pkt.empty with
          id := request.id, rd := request.rd, ra := response_a.ra,
          cd := response_a.cd, qr := true,
          qdcount := request.qdcount, question := request.question,
          answer := (synth_rrs env.synth prefixes response_a.answer).1 },
        ?_, rfl, rfl, rfl, rfl, rfl, rfl, rfl, rfl⟩
      unfold try_dns64_aaaa_synthesis
      rw [hpe, hq]
      dsimp only
      rw [hex]
      dsimp only
      rw [if_neg hlen, if_neg (Nat.pos_iff_ne_zero.mp hpos)]
      rfl

/-- C9 witness: the concrete synthesis scenario — the auxiliary A exchange
returns two A records, each synthesized against the single 96-bit prefix —
returns a response with the request's id, two AAAA answers, and the A
response's RA and CD bits. -/
theorem c9_witness :
    ∃ resp, try_dns64_aaaa_synthesis c9Env 0 c9Prefixes c9Req = some resp
      ∧ resp.id = c9Req.id ∧ resp.rd = c9Req.rd
      ∧ resp.ra = c9RespA.ra ∧ resp.cd = c9RespA.cd
      ∧ resp.qr = true ∧ resp.question = c9Req.question
      ∧ resp.qdcount = c9Req.qdcount
      ∧ resp.answer = (synth_rrs c9Env.synth c9Prefixes c9RespA.answer).1 := by
  exact ((c9_dns64_synthesis c9Env 0 c9Prefixes c9Req ⟨"ipv4only.arpa.", .AAAA, 1⟩ c9RespA
    rfl (by decide)).2 rfl).2 (by decide)

/-! ### C5 and C6 -/

/-- For an A/AAAA question on the canary domain, the pipeline returns the
NXDOMAIN response whatever the filter and upstream oracles are. -/
theorem handle_pipeline_canary (env : Env) (st : FwdState) (q : Question) (key : String)
    (c1 : LruCache CachedResponse) (request : Pkt)
    (htype : q.qtype = .A ∨ q.qtype = .AAAA) (hname : q.qname = MOZILLA_DOH_HOST) :
    handle_pipeline env st q key c1 request
      = (create_nxdomain_response env.wall_now request st.settings, c1) := by
  unfold handle_pipeline
  rw [if_pos ⟨htype, hname⟩]

/-- C6: for an A or AAAA query on `use-application-dns.net.`, two runs of
`handle_message` that differ only in the filter oracles and the upstream
exchange oracle return identical results (noninterference), and when the
cache lookup misses, that result is an NXDOMAIN response carrying one SOA
in its authority section. -/
theorem c6_canary_noninterference (env1 env2 : Env) (st : FwdState) (request : Pkt)
    (q : Question)
    (hq : request.question.head? = some q)
    (htype : q.qtype = .A ∨ q.qtype = .AAAA)
    (hname : q.qname = MOZILLA_DOH_HOST)
    (hnow : env1.now = env2.now) (hwall : env1.wall_now = env2.wall_now)
    (hrand : env1.random_id = env2.random_id)
    (hip4 : env1.is_valid_ip4 = env2.is_valid_ip4)
    (haddr : env1.addr_to_str = env2.addr_to_str)
    (hd64 : env1.dns64_exchange = env2.dns64_exchange)
    (hsynth : env1.synth = env2.synth) :
    handle_message env1 st request = handle_message env2 st request
    ∧ ((create_response_from_cache st.settings st.cache env1.now
          (get_cache_key request) request).1.response = none →
        (handle_message env1 st request).1.rcode = .NXDOMAIN
        ∧ ∃ soa, (handle_message env1 st request).1.authority = [soa]
            ∧ soa.rtype = .SOA) := by
  have hlookup : create_response_from_cache st.settings st.cache env2.now
      (get_cache_key request) request
      = create_response_from_cache st.settings st.cache env1.now
        (get_cache_key request) request := by
    rw [hnow]
  have hpipe : ∀ (e : Env) (c1 : LruCache CachedResponse),
      handle_pipeline e st q (get_cache_key request) c1 request
        = (create_nxdomain_response e.wall_now request st.settings, c1) :=
    fun e c1 => handle_pipeline_canary e st q (get_cache_key request) c1 request htype hname
  constructor
  · unfold handle_message
    rw [hq]
    dsimp only
    rw [hlookup]
    cases hr : (create_response_from_cache st.settings st.cache env1.now
        (get_cache_key request) request).1.response with
    | some resp =>
      simp only [hr]
      cases hb : ((create_response_from_cache st.settings st.cache env1.now
          (get_cache_key request) request).1.expired && !st.settings.optimistic_cache) with
      | true =>
        rw [if_pos (by rfl : (true : Bool) = true), if_pos (by rfl : (true : Bool) = true)]
        rw [hpipe env1, hpipe env2, hwall]
      | false =>
        rw [if_neg (by simp : ¬ ((false : Bool) = true)),
          if_neg (by simp : ¬ ((false : Bool) = true))]
    | none =>
      simp only [hr]
      rw [hpipe env1, hpipe env2, hwall]
  · intro hmiss
    unfold handle_message
    rw [hq]
    dsimp only
    rw [hmiss]
    dsimp only
    rw [hpipe env1]
    exact ⟨rfl, create_soa env1.wall_now request st.settings 900, rfl, rfl⟩

/-- C6 witness: the concrete canary query through two environments that
differ in filter results and upstream behavior yields identical responses,
and the response is NXDOMAIN with one SOA. -/
theorem c6_witness :
    handle_message trivEnv c6St c6Req = handle_message c6Env2 c6St c6Req
    ∧ ((handle_message trivEnv c6St c6Req).1.rcode = .NXDOMAIN
        ∧ ∃ soa, (handle_message trivEnv c6St c6Req).1.authority = [soa]
            ∧ soa.rtype = .SOA) := by
  have h := c6_canary_noninterference trivEnv c6Env2 c6St c6Req
    ⟨"use-application-dns.net.", .A, 1⟩ rfl (Or.inl rfl) rfl rfl rfl rfl rfl rfl rfl rfl
  exact ⟨h.1, h.2 (by decide)⟩

/-- C5 counterexample: an AAAA request handled with `block_ipv6` set is NOT
always answered with the NOERROR/SOA(60) shape: with blocking mode REFUSED
and a matching adblock-style rule, the pre-filter's blocking response (rcode
REFUSED, empty authority) is returned instead. -/
theorem c5_counterexample :
    c5St.settings.block_ipv6 = true
      ∧ qtypeOf c5Req = .AAAA
      ∧ (handle_message c5Env c5St c5Req).1.rcode = .REFUSED
      ∧ (handle_message c5Env c5St c5Req).1.authority = [] := by
  decide

/-- C5 as amended: an AAAA request handled with `block_ipv6` set, served
neither from the cache nor by the canary short-circuit, and for which the
pre-filter yields no blocking response with a non-NOERROR rcode, is
answered NOERROR with zero answer records and exactly one SOA in the
authority section whose RETRY field is 60. -/
theorem c5_ipv6_block (env : Env) (st : FwdState) (request : Pkt) (q : Question)
    (hq : request.question.head? = some q)
    (hAAAA : q.qtype = .AAAA)
    (hblk : st.settings.block_ipv6 = true)
    (hmiss : (create_response_from_cache st.settings st.cache env.now
        (get_cache_key request) request).1.response = none)
    (hcanary : q.qname ≠ MOZILLA_DOH_HOST)
    (hfilter : ∀ p, (apply_filter env st.settings (stripDot q.qname) request []).1 = some p →
        p.rcode = .NOERROR) :
    (handle_message env st request).1.rcode = .NOERROR
      ∧ (handle_message env st request).1.answer = []
      ∧ ∃ soa, (handle_message env st request).1.authority = [soa]
          ∧ soa.rtype = .SOA ∧ soaRetryOf soa = some 60 := by
  unfold handle_message
  rw [hq]
  dsimp only
  rw [hmiss]
  dsimp only
  unfold handle_pipeline
  rw [if_neg (fun hc => hcanary hc.2), if_pos ⟨by rw [hblk], hAAAA⟩]
  cases haf : apply_filter env st.settings (stripDot q.qname) request [] with
  | mk opt lr =>
    cases opt with
    | some bresp =>
      have hrc : bresp.rcode = .NOERROR := hfilter bresp (by rw [haf])
      simp only [haf]
      rw [if_pos hrc]
      exact ⟨rfl, rfl, create_soa env.wall_now request st.settings SOA_RETRY_IPV6_BLOCK,
        rfl, rfl, rfl⟩
    | none =>
      simp only [haf]
      exact ⟨rfl, rfl, create_soa env.wall_now request st.settings SOA_RETRY_IPV6_BLOCK,
        rfl, rfl, rfl⟩

/-- C5 witness: the concrete AAAA request with the IPv6 hard block enabled
and an empty filter yields the NOERROR/empty-answer/SOA(60) response,
through the amended theorem. -/
theorem c5_witness :
    (handle_message trivEnv c5wSt c5Req).1.rcode = .NOERROR
      ∧ (handle_message trivEnv c5wSt c5Req).1.answer = []
      ∧ ∃ soa, (handle_message trivEnv c5wSt c5Req).1.authority = [soa]
          ∧ soa.rtype = .SOA ∧ soaRetryOf soa = some 60 := by
  exact c5_ipv6_block trivEnv c5wSt c5Req ⟨"host.example.", .AAAA, 1⟩ rfl rfl rfl
    (by decide) (by decide)
    (by intro p hp; simp [apply_filter, trivEnv] at hp)

end DnsLibs
